import Mathlib

/-!
# mp3nema: the stream handling of `stream.c`

A shallow embedding of `suck_data_from_stream` (src/stream.c, lines 61-176),
of `connect_host`, `get_stream_info` and `handle_as_stream` (lines 36-58 and
179-280), and theorems about them.

Conventions of the embedding.

* `DEFAULT_BLK_SZ` is defined in `main.h`, which is not part of the sources at
  hand; it is a parameter `B : Nat` of every definition.
* C `int` values are `Int`.  Signed overflow is undefined behaviour in C, so an
  arithmetic result outside `[INT_MIN, INT_MAX]` ends the run with
  `Fault.int_overflow`.
* `brain` is a `List Byte`; `memmove` and `memcpy` end the run with a fault when
  they would touch memory outside `brain[0 .. brain_sz)`.
* The record decoders (`next_mp3_frame_or_id3v2`, `mp3_set_header`,
  `id3_set_header`) live in other translation units; they are the fields of a
  parameter `Decoders`.
* `while (1)` is run with a fuel bound; running out of fuel is the fault
  `Fault.out_of_fuel`.
* Every fault carries the state in which it happened, so that statements about
  "every call" also cover runs that do not finish.
* `State.trace` and `State.savefp` are observation logs (classifier calls,
  compactions, resets; bytes written to the capture file).  The C variables are
  the other four fields.
* For the connection glue, the answers of the system calls, of the C library
  and of `utils.c` are the fields of a parameter `World`; what the functions do
  is logged as a list of `Action`s.
-/

namespace Mp3nema

/-- One `char` of the stream. The read loop never inspects byte values. -/
abbrev Byte := Fin 256

/-- Smallest value of a 32-bit C `int`. -/
def INT_MIN : Int := -2147483648

/-- Largest value of a 32-bit C `int`. -/
def INT_MAX : Int := 2147483647

/-- Whether `x` is representable as a C `int`. -/
def in_int (x : Int) : Prop := INT_MIN ≤ x ∧ x ≤ INT_MAX

instance (x : Int) : Decidable (in_int x) :=
  inferInstanceAs (Decidable (INT_MIN ≤ x ∧ x ≤ INT_MAX))

/-- Line 67: `static const int brain_sz = DEFAULT_BLK_SZ * 4;` -/
def brain_sz (B : Nat) : Int := (B : Int) * 4

/-- Modelled from the spec: the enumeration `STREAM_OBJECT` is declared in a
header that is not among the sources; the spec gives a classified record as one
of frame, tag, unrecognized, and the loop tests exactly these three names. -/
inductive STREAM_OBJECT where
  | UNKNOWN
  | MP3_FRAME
  | ID3V2_TAG
  deriving DecidableEq, Repr

/-- The two fields of `mp3_frame_t` the loop reads (line 108); the struct is
declared elsewhere and its fields are taken to be `int`. -/
structure mp3_frame_t where
  header_size : Int
  audio_size : Int
  deriving DecidableEq, Repr

/-- The two fields of `id3_tag_t` the loop reads (line 135); the struct is
declared elsewhere, `size` is taken to be `int` and `footer` is used only as a
truth value. -/
structure id3_tag_t where
  size : Int
  footer : Bool
  deriving DecidableEq, Repr

/-- The two mode bits of `flags_t` that the loop tests (lines 79 and 173). -/
structure flags_t where
  capture_mode : Bool
  extract_mode : Bool
  deriving DecidableEq, Repr

/-- The record decoders, which are external to `stream.c`.

* `next_mp3_frame_or_id3v2 brain curr_brain_sz ignore_oob index extract` is the
  call of line 93: it returns the object type and the value it leaves in
  `index`; `extract` tells whether an OOB file was passed.
* `mp3_set_header brain index` is the frame header decoded at `brain + index`.
* `id3_set_header brain index` is the tag header decoded at `brain + index`. -/
structure Decoders where
  next_mp3_frame_or_id3v2 : List Byte → Int → Bool → Int → Bool → STREAM_OBJECT × Int
  mp3_set_header : List Byte → Int → mp3_frame_t
  id3_set_header : List Byte → Int → id3_tag_t

/-- What the loop does that an observer can count. -/
inductive Event where
  /-- The classifier is called with this `curr_brain_sz`, `ignore_oob`, `index`. -/
  | call (curr_brain_sz : Int) (ignore_oob : Bool) (index : Int)
  /-- A frame found at `index` with length `frame_length` is removed (lines 120-123). -/
  | frame (index : Int) (frame_length : Int)
  /-- A tag found at `index` with total size `size` is removed (lines 147-150). -/
  | tag (index : Int) (size : Int)
  /-- The buffer is reset inside the classification loop (lines 101-103, 127-129, 154-156). -/
  | resync
  /-- The chunk does not fit and the buffer is reset (lines 166-167). -/
  | overflow
  deriving DecidableEq, Repr

/-- The local variables of `suck_data_from_stream` together with the logs. -/
structure State where
  brain : List Byte
  curr_brain_sz : Int
  ignore_oob : Bool
  index : Int
  savefp : List Byte
  trace : List Event
  deriving DecidableEq, Repr

/-- Why a run stopped before the read loop ended. -/
inductive Fault where
  /-- A signed addition or subtraction left the range of `int`. -/
  | int_overflow
  /-- The `memmove` of line 121 or 148 would leave `brain`. -/
  | memmove_out_of_bounds
  /-- The `memcpy` of line 170 would write before `brain`. -/
  | memcpy_before_start
  /-- The `memcpy` of line 170 would write past the end of `brain`. -/
  | memcpy_past_end
  /-- The fuel given to `while (1)` ran out. -/
  | out_of_fuel
  deriving DecidableEq, Repr

/-- Result of running a piece of the loop: a value, or a fault and the state
in which it occurred. -/
inductive Outcome (α : Type) where
  | ok (a : α)
  | fault (f : Fault) (s : State)
  deriving DecidableEq, Repr

/-- The state an outcome ends in. -/
def Outcome.state : Outcome State → State
  | .ok s => s
  | .fault _ s => s

/-- The call `memmove(brain, brain + k, brain_sz - k)`: defined when
`0 ≤ k ≤ brain_sz`; the first `brain_sz - k` bytes become the bytes from `k`
on, the last `k` bytes keep their values. -/
def memmove_brain (B : Nat) (brain : List Byte) (k : Int) : Option (List Byte) :=
  if 0 ≤ k ∧ k ≤ brain_sz B then
    some (brain.drop k.toNat ++ brain.drop (brain_sz B - k).toNat)
  else none

/-- The call `memcpy(brain + off, data, recv_sz)`. -/
def memcpy_brain (B : Nat) (brain : List Byte) (off : Int) (data : List Byte) :
    Except Fault (List Byte) :=
  if off < 0 then .error .memcpy_before_start
  else if off + (data.length : Int) > brain_sz B then .error .memcpy_past_end
  else .ok (brain.take off.toNat ++ data ++ brain.drop (off.toNat + data.length))

/-- Lines 120-123 and 147-150: `len += index; memmove(brain, brain + len,
brain_sz - len); curr_brain_sz -= len;` followed by line 159,
`ignore_oob = 0`. The event `ev` records which branch ran. -/
def remove_record (B : Nat) (s : State) (len : Int) (ev : Event) : Outcome (Bool × State) :=
  let len1 := len + s.index
  if ¬ in_int len1 then .fault .int_overflow s
  else
    match memmove_brain B s.brain len1 with
    | none => .fault .memmove_out_of_bounds s
    | some brain1 =>
      if ¬ in_int (s.curr_brain_sz - len1) then .fault .int_overflow s
      else .ok (true, { s with brain := brain1,
                               curr_brain_sz := s.curr_brain_sz - len1,
                               ignore_oob := false,
                               trace := s.trace ++ [ev] })

/-- Lines 101-103, 127-129, 154-156: `curr_brain_sz = 0; ignore_oob = 1; break;` -/
def reset_break (s : State) : Outcome (Bool × State) :=
  .ok (false, { s with curr_brain_sz := 0, ignore_oob := true,
                       trace := s.trace ++ [Event.resync] })

/-- One pass through the body of `while (1)` (lines 93-159). The Boolean tells
whether the loop goes round again (`true`) or was left by `break` (`false`). -/
def classify_iter (B : Nat) (flags : flags_t) (dec : Decoders) (s : State) :
    Outcome (Bool × State) :=
  let r := dec.next_mp3_frame_or_id3v2 s.brain s.curr_brain_sz s.ignore_oob s.index
    flags.extract_mode
  let s1 : State :=
    { s with index := r.2,
             trace := s.trace ++ [Event.call s.curr_brain_sz s.ignore_oob s.index] }
  match r.1 with
  | .UNKNOWN => reset_break s1
  | .MP3_FRAME =>
    let frame := dec.mp3_set_header s1.brain s1.index
    let frame_length := frame.audio_size + frame.header_size
    if ¬ in_int frame_length then .fault .int_overflow s1
    else if frame_length ≥ s1.curr_brain_sz then .ok (false, s1)
    else if frame_length ≠ 0 then
      remove_record B s1 frame_length (Event.frame s1.index frame_length)
    else reset_break s1
  | .ID3V2_TAG =>
    let id3_tag := dec.id3_set_header s1.brain s1.index
    let size := id3_tag.size + (10 + (if id3_tag.footer then 10 else 0))
    if ¬ in_int size then .fault .int_overflow s1
    else if size ≥ s1.curr_brain_sz then .ok (false, s1)
    else if size ≠ 0 then
      remove_record B s1 size (Event.tag s1.index size)
    else reset_break s1

/-- The loop `while (1)` of lines 91-160, with at most `fuel` passes. -/
def classify_loop (B : Nat) (flags : flags_t) (dec : Decoders) : Nat → State → Outcome State
  | 0, s => .fault .out_of_fuel s
  | fuel + 1, s =>
    match classify_iter B flags dec s with
    | .fault f s1 => .fault f s1
    | .ok (true, s1) => classify_loop B flags dec fuel s1
    | .ok (false, s1) => .ok s1

/-- Lines 163-174, after the classification: the overflow test, the append and
the capture write. -/
def append_chunk (B : Nat) (flags : flags_t) (s : State) (data : List Byte) : Outcome State :=
  let recv_sz : Int := (data.length : Int)
  if ¬ in_int (s.curr_brain_sz + recv_sz) then .fault .int_overflow s
  else if s.curr_brain_sz + recv_sz > brain_sz B then
    .ok { s with curr_brain_sz := 0, trace := s.trace ++ [Event.overflow] }
  else
    match memcpy_brain B s.brain s.curr_brain_sz data with
    | .error f => .fault f s
    | .ok brain1 =>
      .ok { s with brain := brain1,
                   curr_brain_sz := s.curr_brain_sz + recv_sz,
                   savefp := if flags.capture_mode then s.savefp ++ data else s.savefp }

/-- The body of the read loop (lines 87-175) for one read that returned the
bytes `data`. -/
def loop_body (B fuel : Nat) (flags : flags_t) (dec : Decoders) (s : State)
    (data : List Byte) : Outcome State :=
  let recv_sz : Int := (data.length : Int)
  if ¬ in_int (s.curr_brain_sz + recv_sz) then .fault .int_overflow s
  else if s.curr_brain_sz + recv_sz ≥ brain_sz B then
    match classify_loop B flags dec fuel s with
    | .fault f s1 => .fault f s1
    | .ok s1 => append_chunk B flags s1 data
  else append_chunk B flags s data

/-- The read loop of line 86. `reads` lists what the successive `read` calls
return; a read of no bytes (or the end of the list) ends the loop. The C
library guarantees that a read returns at most `DEFAULT_BLK_SZ` bytes. -/
def read_loop (B fuel : Nat) (flags : flags_t) (dec : Decoders) :
    State → List (List Byte) → Outcome State
  | s, [] => .ok s
  | s, data :: rest =>
    if data.length = 0 then .ok s
    else
      match loop_body B fuel flags dec s data with
      | .fault f s1 => .fault f s1
      | .ok s1 => read_loop B fuel flags dec s1 rest

/-- Lines 82-85: the state on entry to the read loop. `brain0` is the content
of the uninitialised array `brain`. -/
def init (brain0 : List Byte) : State :=
  { brain := brain0, curr_brain_sz := 0, ignore_oob := true, index := 0,
    savefp := [], trace := [] }

/-- The function `suck_data_from_stream`. -/
def suck_data_from_stream (B fuel : Nat) (flags : flags_t) (dec : Decoders)
    (brain0 : List Byte) (reads : List (List Byte)) : Outcome State :=
  read_loop B fuel flags dec (init brain0) reads

/-! ## A small concrete decoder used for the worked examples

Frames of the example streams are `[255, n, ...]`: a sync byte `255`, then the
total frame length `n`, then `n - 2` payload bytes different from `255`. -/

/-- Position of the first sync byte `255` among the first `n` bytes. -/
def find_sync : List Byte → Nat → Nat → Option Nat
  | [], _, _ => none
  | _ :: _, 0, _ => none
  | b :: rest, n + 1, pos => if b = 255 then some pos else find_sync rest n (pos + 1)

/-- The example decoder: a frame starts at the first sync byte of the valid
part of the buffer, its header is 2 bytes long and its second byte is the total
length; there are no tags. -/
def sync_decoder : Decoders where
  next_mp3_frame_or_id3v2 := fun brain curr_brain_sz _ index _ =>
    match find_sync brain curr_brain_sz.toNat 0 with
    | some pos => (STREAM_OBJECT.MP3_FRAME, (pos : Int))
    | none => (STREAM_OBJECT.UNKNOWN, index)
  mp3_set_header := fun brain index =>
    { header_size := 2, audio_size := ((brain.getD (index.toNat + 1) 0).val : Int) - 2 }
  id3_set_header := fun _ _ => { size := 0, footer := false }

/-- Sixteen zero bytes: an initial content of `brain` when `DEFAULT_BLK_SZ = 4`. -/
def zeros16 : List Byte := List.replicate 16 0

/-- Capture and extraction both enabled. -/
def all_flags : flags_t := { capture_mode := true, extract_mode := true }

/-! ## Quantities named in the statements -/

/-- The object type the classifier reports when called in state `s` (line 93). -/
def found_type (flags : flags_t) (dec : Decoders) (s : State) : STREAM_OBJECT :=
  (dec.next_mp3_frame_or_id3v2 s.brain s.curr_brain_sz s.ignore_oob s.index
    flags.extract_mode).1

/-- The offset the classifier leaves in `index` when called in state `s`. -/
def found_index (flags : flags_t) (dec : Decoders) (s : State) : Int :=
  (dec.next_mp3_frame_or_id3v2 s.brain s.curr_brain_sz s.ignore_oob s.index
    flags.extract_mode).2

/-- The total length of the reported object as the loop computes it: line 108
for a frame, line 135 for a tag. -/
def found_length (flags : flags_t) (dec : Decoders) (s : State) : Int :=
  match found_type flags dec s with
  | .UNKNOWN => 0
  | .MP3_FRAME =>
    (dec.mp3_set_header s.brain (found_index flags dec s)).audio_size +
      (dec.mp3_set_header s.brain (found_index flags dec s)).header_size
  | .ID3V2_TAG =>
    (dec.id3_set_header s.brain (found_index flags dec s)).size +
      (10 + (if (dec.id3_set_header s.brain (found_index flags dec s)).footer then 10 else 0))

/-- The state in which the classifier's answer is examined: `index` updated
and the call logged. -/
def after_call (flags : flags_t) (dec : Decoders) (s : State) : State :=
  { s with index := found_index flags dec s,
           trace := s.trace ++ [Event.call s.curr_brain_sz s.ignore_oob s.index] }

/-- The state after `curr_brain_sz = 0; ignore_oob = 1;` inside the
classification loop. -/
def resynced (s : State) : State :=
  { s with curr_brain_sz := 0, ignore_oob := true, trace := s.trace ++ [Event.resync] }

/-- The state after a record of length `len` found at `s.index` has been
removed and `ignore_oob` cleared. -/
def compacted (B : Nat) (s : State) (len : Int) (ev : Event) : State :=
  { s with brain := s.brain.drop (len + s.index).toNat ++
              s.brain.drop (brain_sz B - (len + s.index)).toNat,
           curr_brain_sz := s.curr_brain_sz - (len + s.index),
           ignore_oob := false,
           trace := s.trace ++ [ev] }

/-- The event logged when the object found in state `s` is removed. -/
def removal_event (flags : flags_t) (dec : Decoders) (s : State) : Event :=
  match found_type flags dec s with
  | .ID3V2_TAG => Event.tag (found_index flags dec s) (found_length flags dec s)
  | _ => Event.frame (found_index flags dec s) (found_length flags dec s)

/-- The state after the overflow reset of lines 166-167. -/
def overflowed (s : State) : State :=
  { s with curr_brain_sz := 0, trace := s.trace ++ [Event.overflow] }

/-- The state after the chunk `data` has been appended (lines 170-174). -/
def appended (flags : flags_t) (s : State) (data : List Byte) : State :=
  { s with brain := s.brain.take s.curr_brain_sz.toNat ++ data ++
              s.brain.drop (s.curr_brain_sz.toNat + data.length),
           curr_brain_sz := s.curr_brain_sz + (data.length : Int),
           savefp := if flags.capture_mode then s.savefp ++ data else s.savefp }

/-! ## Example inputs -/

/-- Six reads of three bytes; the stream starts with the header of a frame of
declared length 100. -/
def capture_reads : List (List Byte) :=
  [[255, 100, 0], [1, 1, 1], [2, 2, 2], [3, 3, 3], [4, 4, 4], [5, 5, 5]]

/-- The state in which the run over `capture_reads` ends. -/
def capture_final : State :=
  { brain := [255, 100, 0, 1, 1, 1, 2, 2, 2, 3, 3, 3, 4, 4, 4, 0],
    curr_brain_sz := 0,
    ignore_oob := true,
    index := 0,
    savefp := [255, 100, 0, 1, 1, 1, 2, 2, 2, 3, 3, 3, 4, 4, 4],
    trace := [Event.call 15 true 0, Event.overflow] }

/-- Twelve buffered bytes: four junk bytes, a 6-byte frame, the first two
bytes of a second frame. -/
def twelve_buffered : State :=
  { brain := [0, 0, 0, 0, 255, 6, 1, 2, 3, 4, 255, 6, 0, 0, 0, 0],
    curr_brain_sz := 12,
    ignore_oob := true,
    index := 0,
    savefp := [0, 0, 0, 0, 255, 6, 1, 2, 3, 4, 255, 6],
    trace := [] }

/-- The state `twelve_buffered` after its first frame has been removed. -/
def twelve_compacted : State :=
  { brain := [255, 6, 0, 0, 0, 0, 1, 2, 3, 4, 255, 6, 0, 0, 0, 0],
    curr_brain_sz := 2,
    ignore_oob := false,
    index := 4,
    savefp := [0, 0, 0, 0, 255, 6, 1, 2, 3, 4, 255, 6],
    trace := [Event.call 12 true 0, Event.frame 4 6] }

/-- The reads of the overflow example: a 2-byte frame, then the header of a
frame of declared length 100, then filler. -/
def overflow_reads : List (List Byte) :=
  [[255, 2, 255, 100], [0, 0, 0, 0], [0, 0, 0, 0], [1, 1, 1, 1], [2, 2, 2, 2]]

/-- The state before the fifth read of `overflow_reads`. -/
def overflow_before : State :=
  { brain := [255, 100, 0, 0, 0, 0, 0, 0, 0, 0, 1, 1, 1, 1, 0, 0],
    curr_brain_sz := 14,
    ignore_oob := false,
    index := 0,
    savefp := [255, 2, 255, 100, 0, 0, 0, 0, 0, 0, 0, 0, 1, 1, 1, 1],
    trace := [Event.call 12 true 0, Event.frame 0 2, Event.call 10 false 0] }

/-- The state after the fifth read of `overflow_reads`. -/
def overflow_final : State :=
  { brain := [255, 100, 0, 0, 0, 0, 0, 0, 0, 0, 1, 1, 1, 1, 0, 0],
    curr_brain_sz := 0,
    ignore_oob := false,
    index := 0,
    savefp := [255, 2, 255, 100, 0, 0, 0, 0, 0, 0, 0, 0, 1, 1, 1, 1],
    trace := [Event.call 12 true 0, Event.frame 0 2, Event.call 10 false 0,
              Event.call 14 false 0, Event.overflow] }

/-- The reads of the truncated-frame example: ten junk bytes, then the first
two bytes of a 5-byte frame, then one more read. -/
def truncated_reads : List (List Byte) :=
  [[0, 0, 0, 0], [0, 0, 0, 0], [0, 0, 255, 5], [1, 1, 1, 1]]

/-- The state when the fourth read of `truncated_reads` starts the
classification: twelve bytes buffered, the frame header at offset 10. -/
def truncated_before : State :=
  { brain := [0, 0, 0, 0, 0, 0, 0, 0, 0, 0, 255, 5, 0, 0, 0, 0],
    curr_brain_sz := 12,
    ignore_oob := true,
    index := 0,
    savefp := [0, 0, 0, 0, 0, 0, 0, 0, 0, 0, 255, 5],
    trace := [] }

/-- The state after the first pass of the classification of `truncated_before`. -/
def truncated_after : State :=
  { brain := [0, 0, 0, 0, 0, 0, 0, 0, 0, 0, 255, 5, 0, 0, 0, 0],
    curr_brain_sz := -3,
    ignore_oob := false,
    index := 10,
    savefp := [0, 0, 0, 0, 0, 0, 0, 0, 0, 0, 255, 5],
    trace := [Event.call 12 true 0, Event.frame 10 5] }

/-- The state in which the run over `truncated_reads` ends. -/
def truncated_final : State :=
  { brain := [1, 1, 1, 1, 0, 0, 0, 0, 0, 0, 255, 5, 0, 0, 0, 0],
    curr_brain_sz := 4,
    ignore_oob := true,
    index := 10,
    savefp := [0, 0, 0, 0, 0, 0, 0, 0, 0, 0, 255, 5, 1, 1, 1, 1],
    trace := [Event.call 12 true 0, Event.frame 10 5, Event.call (-3) false 10,
              Event.resync] }

/-- The scenario stream `[4 junk bytes][6-byte frame][6-byte frame]` as two
chunks of eight bytes. -/
def scenario_two_chunks : List (List Byte) :=
  [[0, 0, 0, 0, 255, 6, 1, 2], [3, 4, 255, 6, 5, 6, 7, 8]]

/-- The same sixteen bytes as four reads of `DEFAULT_BLK_SZ = 4` bytes. -/
def scenario_four_reads : List (List Byte) :=
  [[0, 0, 0, 0], [255, 6, 1, 2], [3, 4, 255, 6], [5, 6, 7, 8]]

/-- The state in which the run over `scenario_two_chunks` ends. -/
def scenario_two_final : State :=
  { brain := [3, 4, 255, 6, 5, 6, 7, 8, 0, 0, 0, 0, 0, 0, 0, 0],
    curr_brain_sz := 8,
    ignore_oob := true,
    index := 4,
    savefp := [0, 0, 0, 0, 255, 6, 1, 2, 3, 4, 255, 6, 5, 6, 7, 8],
    trace := [Event.call 8 true 0, Event.frame 4 6, Event.call (-2) false 4, Event.resync] }

/-- The state in which the run over `scenario_four_reads` ends. -/
def scenario_four_final : State :=
  { brain := [255, 6, 5, 6, 7, 8, 1, 2, 3, 4, 255, 6, 0, 0, 0, 0],
    curr_brain_sz := 6,
    ignore_oob := false,
    index := 0,
    savefp := [0, 0, 0, 0, 255, 6, 1, 2, 3, 4, 255, 6, 5, 6, 7, 8],
    trace := [Event.call 12 true 0, Event.frame 4 6, Event.call 2 false 4] }

/-- A decoder that reports, at offset 5, a frame whose header gives
`header_size = 4` and `audio_size = -5`: computed total length `-1`. -/
def negative_length_decoder : Decoders where
  next_mp3_frame_or_id3v2 := fun _ _ _ _ _ => (STREAM_OBJECT.MP3_FRAME, 5)
  mp3_set_header := fun _ _ => { header_size := 4, audio_size := -5 }
  id3_set_header := fun _ _ => { size := 0, footer := false }

/-- The state after `negative_length_decoder` has classified `twelve_buffered`. -/
def negative_length_after : State :=
  { brain := [255, 6, 1, 2, 3, 4, 255, 6, 0, 0, 0, 0, 0, 0, 0, 0],
    curr_brain_sz := 8,
    ignore_oob := false,
    index := 5,
    savefp := [0, 0, 0, 0, 255, 6, 1, 2, 3, 4, 255, 6],
    trace := [Event.call 12 true 0, Event.frame 5 (-1)] }

/-- A decoder that reports a frame of length 11 at offset 1 while the buffer is
not empty, and a frame of length 0 at offset 0 once it is empty. -/
def end_aligned_decoder : Decoders where
  next_mp3_frame_or_id3v2 := fun _ curr_brain_sz _ _ _ =>
    if 0 < curr_brain_sz then (STREAM_OBJECT.MP3_FRAME, 1) else (STREAM_OBJECT.MP3_FRAME, 0)
  mp3_set_header := fun _ index =>
    if index = 1 then { header_size := 2, audio_size := 9 }
    else { header_size := 0, audio_size := 0 }
  id3_set_header := fun _ _ => { size := 0, footer := false }

/-- The state `twelve_buffered` after `end_aligned_decoder` has removed its
frame, which ends where the buffered data ends. -/
def emptied : State :=
  { brain := [0, 0, 0, 0, 255, 6, 1, 2, 3, 4, 255, 6, 0, 0, 0, 0],
    curr_brain_sz := 0,
    ignore_oob := false,
    index := 1,
    savefp := [0, 0, 0, 0, 255, 6, 1, 2, 3, 4, 255, 6],
    trace := [Event.call 12 true 0, Event.frame 1 11] }

/-- A decoder that reports a frame of computed length 0 at offset 0. -/
def zero_length_decoder : Decoders where
  next_mp3_frame_or_id3v2 := fun _ _ _ _ _ => (STREAM_OBJECT.MP3_FRAME, 0)
  mp3_set_header := fun _ _ => { header_size := 0, audio_size := 0 }
  id3_set_header := fun _ _ => { size := 0, footer := false }

/-- A decoder that never recognises anything and sets `index` to 0. -/
def unknown_decoder : Decoders where
  next_mp3_frame_or_id3v2 := fun _ _ _ _ _ => (STREAM_OBJECT.UNKNOWN, 0)
  mp3_set_header := fun _ _ => { header_size := 0, audio_size := 0 }
  id3_set_header := fun _ _ => { size := 0, footer := false }

/-- A decoder that reports, at offset 0, a tag of declared size 2 without
footer: total length 12. -/
def tag_decoder : Decoders where
  next_mp3_frame_or_id3v2 := fun _ _ _ _ _ => (STREAM_OBJECT.ID3V2_TAG, 0)
  mp3_set_header := fun _ _ => { header_size := 0, audio_size := 0 }
  id3_set_header := fun _ _ => { size := 2, footer := false }

/-- Sixteen buffered bytes (the buffer is full). -/
def sixteen_buffered : State :=
  { brain := [0, 1, 2, 3, 4, 5, 6, 7, 8, 9, 10, 11, 12, 13, 14, 15],
    curr_brain_sz := 16,
    ignore_oob := true,
    index := 0,
    savefp := [],
    trace := [] }

/-! ## Observations on a trace -/

/-- Whether an event is the removal of a frame. -/
def is_frame_removal : Event → Bool
  | .frame _ _ => true
  | _ => false

/-- Number of frames classified and removed in a trace. -/
def frames_removed (trace : List Event) : Nat :=
  (trace.filter is_frame_removal).length

/-- The effect of one event on the "armed" flag of the claim: a compaction
disarms, a reset inside the classification loop arms, anything else leaves it. -/
def armed_step (armed : Bool) : Event → Bool
  | .frame _ _ => false
  | .tag _ _ => false
  | .resync => true
  | _ => armed

/-- Whether the flag is armed after a trace, starting from `armed`: no
compaction has happened since the start or since the last reset. -/
def armed_after (armed : Bool) (trace : List Event) : Bool :=
  trace.foldl armed_step armed

/-- Whether an event respects the flag: a classifier call made while armed
passes `ignore_oob = true`. -/
def call_respects (armed : Bool) : Event → Bool
  | .call _ ignore_oob _ => !armed || ignore_oob
  | _ => true

/-- Whether every classifier call of a trace made while armed passes
`ignore_oob = true`. -/
def calls_respect : Bool → List Event → Bool
  | _, [] => true
  | armed, e :: rest => call_respects armed e && calls_respect (armed_step armed e) rest

/-! ## Buffers of the one-frame stream -/

/-- The buffer holds garbage only, at its place in the stream: the garbage `G`
is some bytes already dropped, then the valid bytes of the buffer, then the
reads `rs` still to come. -/
def garbage_buffer (B : Nat) (G : List Byte) (s : State) (rs : List (List Byte)) : Prop :=
  s.brain.length = 4 * B ∧ 0 ≤ s.curr_brain_sz ∧ s.curr_brain_sz ≤ brain_sz B ∧
    ∃ A, A ++ (s.brain.take s.curr_brain_sz.toNat ++ rs.flatten) = G

/-- The buffer holds exactly the bytes `pre` read so far. -/
def prefix_buffer (B : Nat) (pre : List Byte) (s : State) : Prop :=
  s.brain.length = 4 * B ∧ s.curr_brain_sz = (pre.length : Int) ∧
    s.brain.take pre.length = pre

/-- A 6-byte frame of the example decoder. -/
def frame6 : List Byte := [255, 6, 1, 2, 3, 4]

/-- Twelve garbage bytes in which every byte value of `frame6` occurs. -/
def garbage12 : List Byte := [4, 3, 2, 1, 6, 255, 0, 0, 0, 0, 0, 0]

/-- The stream `frame6 ++ garbage12` as reads of at most four bytes. -/
def one_frame_reads : List (List Byte) :=
  [[255, 6, 1, 2], [3, 4, 4, 3], [2, 1, 6, 255], [0, 0, 0, 0], [0, 0]]

/-- A decoder that knows the one frame `frame6`: it reports a frame at offset 0
when the valid part of the buffer starts with `frame6`, and nothing otherwise;
there are no tags. -/
def frame6_decoder : Decoders where
  next_mp3_frame_or_id3v2 := fun brain curr_brain_sz _ index _ =>
    if frame6.isPrefixOf (brain.take curr_brain_sz.toNat) then (STREAM_OBJECT.MP3_FRAME, 0)
    else (STREAM_OBJECT.UNKNOWN, index)
  mp3_set_header := fun _ _ => { header_size := 2, audio_size := 4 }
  id3_set_header := fun _ _ => { size := 0, footer := false }

/-- A 6-byte frame followed by two garbage bytes, as two reads: the stream is
shorter than the buffer. -/
def short_reads : List (List Byte) :=
  [[255, 6, 1, 2], [3, 4, 0, 0]]

/-- A 14-byte frame followed by three garbage bytes, as reads of 4, 4, 4, 1
and 4 bytes. -/
def long_frame_reads : List (List Byte) :=
  [[255, 14, 1, 1], [1, 1, 1, 1], [1, 1, 1, 1], [1], [1, 0, 0, 0]]

/-! ## The connection glue: `connect_host`, `get_stream_info`, `handle_as_stream`

The system calls, the C library and `utils.c` are outside `stream.c`; what they
answer is given by a `World`. -/

/-- The fields of `hostdata_t` that `stream.c` uses; the struct is declared in
`utils.h`, which is not among the sources. Strings are byte lists. -/
structure hostdata_t where
  host : List Byte
  port : List Byte
  portnum : Int
  file : List Byte
  deriving DecidableEq, Repr

/-- What the environment answers.

* `socket k` is the descriptor returned by the `k`-th call of `socket` (`-1` on
  failure); `gethostbyname host` tells whether the host resolves;
  `connect sd host port` is the result of `connect` (`-1` on failure).
* `write k` is the result of the `k`-th call of `write`.
* `response` lists the successive reads on the first connection, `stream` the
  successive reads on the second.
* `realloc_ok size` tells whether `realloc` to `size` bytes succeeds, and
  `fresh i` is the indeterminate content of byte `i` of newly obtained memory.
* `newhost` is the indeterminate content of the uninitialised local `newhost`.
* `util_url_to_host_port_file` is the URL parser of `utils.c`, and
  `util_create_file` tells whether the capture file can be created. -/
structure World where
  socket : Nat → Int
  gethostbyname : List Byte → Bool
  connect : Int → List Byte → Int → Int
  write : Nat → Int
  response : List (List Byte)
  stream : List (List Byte)
  realloc_ok : Int → Bool
  fresh : Nat → Byte
  newhost : hostdata_t
  util_url_to_host_port_file : List Byte → hostdata_t
  util_create_file : Bool

/-- The function `connect_host` (lines 36-58); `k` numbers the call of `socket`. -/
def connect_host (w : World) (k : Nat) (host : List Byte) (port : Int) : Int :=
  if w.socket k = -1 then 0
  else if ¬ w.gethostbyname host then 0
  else if w.connect (w.socket k) host port = -1 then 0
  else w.socket k

/-- Line 186: `static const int buf_blk_sz = DEFAULT_BLK_SZ;` -/
def buf_blk_sz (B : Nat) : Int := (B : Int)

/-- The locals of the response loop of `get_stream_info` (lines 206-218);
`buf` is `none` for `NULL` and otherwise the allocated block. -/
structure Info where
  total_sz : Int
  n_buf_blks : Int
  buf : Option (List Byte)
  deriving DecidableEq, Repr

/-- Why the response loop stopped before the reads ended. -/
inductive InfoFault where
  /-- A signed operation left the range of `int`. -/
  | int_overflow
  /-- The `memcpy` of line 216 writes through `NULL` after a failed `realloc`. -/
  | memcpy_null
  /-- The `memcpy` of line 216 would write before the block. -/
  | memcpy_before_block
  /-- The `memcpy` of line 216 would write past the end of the block. -/
  | memcpy_past_block
  deriving DecidableEq, Repr

/-- Result of the response loop: the locals, or a fault and the locals at the
fault. -/
inductive InfoOutcome where
  | ok (a : Info)
  | fault (f : InfoFault) (a : Info)
  deriving DecidableEq, Repr

/-- The locals an outcome ends with. -/
def InfoOutcome.state : InfoOutcome → Info
  | .ok a => a
  | .fault _ a => a

/-- The block `realloc` returns for `size` bytes: the old content (cut if the
block shrinks) followed by indeterminate bytes. -/
def realloc_block (w : World) (old : List Byte) (size : Nat) : List Byte :=
  old.take size ++ (List.range (size - old.length)).map (fun i => w.fresh (old.length + i))

/-- The call `realloc(buf, size)`: `NULL` on failure. -/
def realloc (w : World) (buf : Option (List Byte)) (size : Int) : Option (List Byte) :=
  if w.realloc_ok size then some (realloc_block w (buf.getD []) size.toNat) else none

/-- Lines 213-214: the conditional `realloc`. -/
def grow_buf (B : Nat) (w : World) (a : Info) (recv_sz : Int) : InfoOutcome :=
  if ¬ in_int (recv_sz + a.total_sz) then .fault .int_overflow a
  else if ¬ in_int (a.n_buf_blks * buf_blk_sz B) then .fault .int_overflow a
  else if recv_sz + a.total_sz ≥ a.n_buf_blks * buf_blk_sz B then
    if ¬ in_int (a.n_buf_blks + 1) then .fault .int_overflow a
    else if ¬ in_int ((a.n_buf_blks + 1) * buf_blk_sz B) then .fault .int_overflow a
    else .ok { a with n_buf_blks := a.n_buf_blks + 1,
                      buf := realloc w a.buf ((a.n_buf_blks + 1) * buf_blk_sz B) }
  else .ok a

/-- Lines 216-217: `memcpy(buf + total_sz, data, recv_sz); total_sz += recv_sz;` -/
def store_chunk (a : Info) (data : List Byte) : InfoOutcome :=
  match a.buf with
  | none => .fault .memcpy_null a
  | some blk =>
    if a.total_sz < 0 then .fault .memcpy_before_block a
    else if a.total_sz + (data.length : Int) > (blk.length : Int) then
      .fault .memcpy_past_block a
    else
      .ok { a with buf := some (blk.take a.total_sz.toNat ++ data ++
                        blk.drop (a.total_sz.toNat + data.length)),
                   total_sz := a.total_sz + (data.length : Int) }

/-- The body of the response loop (lines 212-218) for one read that returned
the bytes `data`. -/
def accumulate_step (B : Nat) (w : World) (a : Info) (data : List Byte) : InfoOutcome :=
  match grow_buf B w a (data.length : Int) with
  | .fault f a1 => .fault f a1
  | .ok a1 => store_chunk a1 data

/-- The response loop of line 211; a read of no bytes (or the end of the list)
ends it. -/
def accumulate (B : Nat) (w : World) : Info → List (List Byte) → InfoOutcome
  | a, [] => .ok a
  | a, data :: rest =>
    if data.length = 0 then .ok a
    else
      match accumulate_step B w a data with
      | .fault f a1 => .fault f a1
      | .ok a1 => accumulate B w a1 rest

/-- Lines 206-209: the locals on entry to the response loop. -/
def info_init : Info := { total_sz := 0, n_buf_blks := 0, buf := none }

/-- The bytes of the C string that starts at the beginning of `mem`: those
before the first NUL; `none` when `mem` holds no NUL, so that reading the string
runs past the block. -/
def c_string : List Byte → Option (List Byte)
  | [] => none
  | b :: rest => if b = 0 then some [] else (c_string rest).map (fun t => b :: t)

/-- The call `strstr(hay, needle)` on byte lists: the offset of the first
occurrence of `needle`, `none` for `NULL`. -/
def strstr : List Byte → List Byte → Option Nat
  | [], needle => if needle = [] then some 0 else none
  | b :: rest, needle =>
    if needle.isPrefixOf (b :: rest) then some 0
    else (strstr rest needle).map (fun i => i + 1)

/-- The bytes of `"http://"`. -/
def http_marker : List Byte := [104, 116, 116, 112, 58, 47, 47]

/-- The token `strtok(c, "\n")` leaves at `c`: leading newlines are skipped and
the token ends before the next newline. -/
def strtok_line (str : List Byte) : List Byte :=
  (str.dropWhile (fun b => b = 10)).takeWhile (fun b => b ≠ 10)

/-- What `get_stream_info` and `handle_as_stream` do that an observer can see. -/
inductive Action where
  /-- A query is written to descriptor `sd`. -/
  | write (sd : Int)
  /-- Descriptor `sd` is closed. -/
  | close (sd : Int)
  /-- The function `connect_host` is called for `host` and `port` and returns `result`. -/
  | connect_host (host : List Byte) (port : Int) (result : Int)
  /-- The capture file is asked for. -/
  | create_file
  /-- The stream read loop `suck_data_from_stream` is entered on descriptor `sd`. -/
  | suck_data (sd : Int)
  /-- The response buffer is freed. -/
  | free
  /-- The capture file is closed. -/
  | fclose
  deriving DecidableEq, Repr

/-- What a call of `get_stream_info` yields: the value returned (`none` when the
call meets undefined behaviour or does not return) and what it did. -/
structure InfoResult where
  ret : Option Int
  actions : List Action
  deriving DecidableEq, Repr

/-- Lines 220-227: the host taken from the response. The outer `none` stands
for a string read that runs past the block, `some none` for `return 0`, and
`some (some h)` for the content of `newhost` at line 231. When `buf` is `NULL`
neither branch runs and `newhost` keeps its indeterminate content. -/
def redirect_target (w : World) (a : Info) : Option (Option hostdata_t) :=
  match a.buf with
  | none => some (some w.newhost)
  | some blk =>
    match c_string blk with
    | none => none
    | some str =>
      match strstr str http_marker with
      | none => some none
      | some i => some (some (w.util_url_to_host_port_file (strtok_line (str.drop i))))

/-- Lines 229-259: disconnect, contact the new host, and pull the stream. -/
def contact_new_host (B fuel : Nat) (flags : flags_t) (dec : Decoders) (brain0 : List Byte)
    (w : World) (sd : Int) (newhost : hostdata_t) : InfoResult :=
  let sd1 := connect_host w 1 newhost.host newhost.portnum
  let acts := [Action.write sd, Action.close sd,
    Action.connect_host newhost.host newhost.portnum sd1]
  if sd1 = 0 then { ret := some 0, actions := acts }
  else if w.write 1 < 1 then { ret := some 0, actions := acts ++ [Action.write sd1] }
  else if flags.capture_mode ∧ ¬ w.util_create_file then
    { ret := some 0, actions := acts ++ [Action.write sd1, Action.create_file] }
  else
    let opened := if flags.capture_mode then [Action.create_file] else []
    let closed := if flags.capture_mode then [Action.fclose] else []
    match suck_data_from_stream B fuel flags dec brain0 w.stream with
    | .fault _ _ =>
      { ret := none, actions := acts ++ [Action.write sd1] ++ opened ++ [Action.suck_data sd1] }
    | .ok _ =>
      { ret := some 1,
        actions := acts ++ [Action.write sd1] ++ opened ++ [Action.suck_data sd1] ++
          [Action.free] ++ closed }

/-- The function `get_stream_info` (lines 179-260). The arguments `host`, `port`
and `file` only shape the text of the query and the name of the capture file
and are left out. -/
def get_stream_info (B fuel : Nat) (flags : flags_t) (dec : Decoders) (brain0 : List Byte)
    (w : World) (sd : Int) : InfoResult :=
  if w.write 0 < 1 then { ret := some 0, actions := [Action.write sd] }
  else
    match accumulate B w info_init w.response with
    | .fault _ _ => { ret := none, actions := [Action.write sd] }
    | .ok a =>
      match redirect_target w a with
      | none => { ret := none, actions := [Action.write sd] }
      | some none => { ret := some 0, actions := [Action.write sd] }
      | some (some newhost) => contact_new_host B fuel flags dec brain0 w sd newhost

/-- The function `handle_as_stream` (lines 263-280): what it does for `url`.
It returns without closing the descriptor when `get_stream_info` returns 0. -/
def handle_as_stream (B fuel : Nat) (flags : flags_t) (dec : Decoders) (brain0 : List Byte)
    (w : World) (url : List Byte) : List Action :=
  let host := w.util_url_to_host_port_file url
  let sd := connect_host w 0 host.host host.portnum
  let connected := [Action.connect_host host.host host.portnum sd]
  if sd = 0 then connected
  else
    let r := get_stream_info B fuel flags dec brain0 w sd
    match r.ret with
    | some 0 => connected ++ r.actions
    | some _ => connected ++ r.actions ++ [Action.close sd]
    | none => connected ++ r.actions

/-- The invariant of the response loop: `total_sz` is within the allocated
`n_buf_blks * buf_blk_sz` bytes, and a block that exists has exactly that size. -/
def info_bounded (B : Nat) (a : Info) : Prop :=
  0 ≤ a.total_sz ∧ 0 ≤ a.n_buf_blks ∧ a.total_sz ≤ a.n_buf_blks * buf_blk_sz B ∧
    ∀ blk, a.buf = some blk → (blk.length : Int) = a.n_buf_blks * buf_blk_sz B

/-- The indeterminate content of `newhost` in the example worlds: host `old`,
port `80`, file `/`. -/
def stale_host : hostdata_t :=
  { host := [111, 108, 100], port := [56, 48], portnum := 80, file := [47] }

/-- A world in which every call succeeds and the first connection delivers no
byte at all. -/
def silent_world : World where
  socket := fun k => 3 + (k : Int)
  gethostbyname := fun _ => true
  connect := fun _ _ _ => 0
  write := fun _ => 1
  response := []
  stream := []
  realloc_ok := fun _ => true
  fresh := fun _ => 0
  newhost := stale_host
  util_url_to_host_port_file := fun _ => { host := [], port := [], portnum := 0, file := [] }
  util_create_file := true

/-- The world `silent_world` in which the host `old` does not resolve. -/
def unresolved_world : World :=
  { silent_world with gethostbyname := fun host => decide (host ≠ [111, 108, 100]) }

/-- The world `silent_world` with the three response bytes `nop`. -/
def plain_world : World := { silent_world with response := [[110, 111, 112]] }

/-- The world `silent_world` with a response of six bytes read as 4 and 2. -/
def two_read_world : World := { silent_world with response := [[1, 2, 3, 4], [5, 6]] }

/-! ## More observations and example decoders -/

/-- Whether an event is a classifier call. -/
def is_call : Event → Bool
  | .call _ _ _ => true
  | _ => false

/-- Number of classifier calls in a trace. -/
def calls_made (trace : List Event) : Nat :=
  (trace.filter is_call).length

/-- What a trace tells about `index`: unknown (`none`) after a classifier call,
the offset of the record after a removal, unchanged otherwise. -/
def cursor_step (known : Option Int) : Event → Option Int
  | .call _ _ _ => none
  | .frame index _ => some index
  | .tag index _ => some index
  | _ => known

/-- What a trace tells about `index` at its end, starting from `known`. -/
def cursor_known (known : Option Int) (trace : List Event) : Option Int :=
  trace.foldl cursor_step known

/-- Whether an event agrees with what is known about `index`: a classifier
call is passed the known value. -/
def call_follows (known : Option Int) : Event → Bool
  | .call _ _ index =>
    match known with
    | some v => decide (index = v)
    | none => true
  | _ => true

/-- Whether every classifier call of a trace is passed the value of `index`
that the trace determines: 0 before the first call, and the offset of the
removed record right after a removal. -/
def calls_follow_cursor : Option Int → List Event → Bool
  | _, [] => true
  | known, e :: rest => call_follows known e && calls_follow_cursor (cursor_step known e) rest

/-- A decoder that reports, at offset 0, a frame of total length 12. -/
def filling_frame_decoder : Decoders where
  next_mp3_frame_or_id3v2 := fun _ _ _ _ _ => (STREAM_OBJECT.MP3_FRAME, 0)
  mp3_set_header := fun _ _ => { header_size := 4, audio_size := 8 }
  id3_set_header := fun _ _ => { size := 0, footer := false }

/-- A decoder that always reports, at offset 10, a frame of total length 5. -/
def fixed_frame_decoder : Decoders where
  next_mp3_frame_or_id3v2 := fun _ _ _ _ _ => (STREAM_OBJECT.MP3_FRAME, 10)
  mp3_set_header := fun _ _ => { header_size := 2, audio_size := 3 }
  id3_set_header := fun _ _ => { size := 0, footer := false }

/-- Four junk bytes, a 6-byte frame and garbage, as seven reads of four bytes. -/
def cursor_reads : List (List Byte) :=
  [[0, 0, 0, 0], [255, 6, 1, 2], [3, 4, 0, 0], [0, 0, 0, 0], [0, 0, 0, 0], [0, 0, 0, 0],
   [0, 0, 0, 0]]

/-- Twelve junk bytes and one more read, as four reads of four bytes. -/
def junk_reads : List (List Byte) :=
  [[0, 0, 0, 0], [0, 0, 0, 0], [0, 0, 0, 0], [1, 1, 1, 1]]

/-- The state after the two reads of `short_reads`: eight bytes buffered. -/
def eight_buffered : State :=
  { brain := [255, 6, 1, 2, 3, 4, 0, 0, 0, 0, 0, 0, 0, 0, 0, 0],
    curr_brain_sz := 8,
    ignore_oob := true,
    index := 0,
    savefp := [255, 6, 1, 2, 3, 4, 0, 0],
    trace := [] }

/-- The state in which the run over `junk_reads` with `fixed_frame_decoder`
stops: the append would write three bytes before `brain`. -/
def junk_fault_state : State :=
  { brain := [0, 0, 0, 0, 0, 0, 0, 0, 0, 0, 0, 0, 0, 0, 0, 0],
    curr_brain_sz := -3,
    ignore_oob := false,
    index := 10,
    savefp := [0, 0, 0, 0, 0, 0, 0, 0, 0, 0, 0, 0],
    trace := [Event.call 12 true 0, Event.frame 10 5, Event.call (-3) false 10] }

/-! ## Basic facts about the pieces of the loop -/

theorem remove_record_state (B : Nat) (s : State) (len : Int) (ev : Event) :
    ((∃ f, f ≠ Fault.memcpy_past_end ∧ remove_record B s len ev = .fault f s) ∧
      (¬ in_int (len + s.index) ∨ ¬ (0 ≤ len + s.index ∧ len + s.index ≤ brain_sz B) ∨
        ¬ in_int (s.curr_brain_sz - (len + s.index)))) ∨
    (remove_record B s len ev = .ok (true, compacted B s len ev) ∧
      0 ≤ len + s.index ∧ len + s.index ≤ brain_sz B) := by
  unfold remove_record memmove_brain compacted
  simp only
  by_cases h1 : in_int (len + s.index)
  · by_cases h2 : 0 ≤ len + s.index ∧ len + s.index ≤ brain_sz B
    · by_cases h3 : in_int (s.curr_brain_sz - (len + s.index))
      · right
        exact ⟨by simp [h1, h2, h3], h2.1, h2.2⟩
      · left
        exact ⟨⟨Fault.int_overflow, by decide, by simp [h1, h2, h3]⟩, Or.inr (Or.inr h3)⟩
    · left
      exact ⟨⟨Fault.memmove_out_of_bounds, by decide, by simp [h1, h2]⟩, Or.inr (Or.inl h2)⟩
  · left
    exact ⟨⟨Fault.int_overflow, by decide, by simp [h1]⟩, Or.inl h1⟩

/-- What one pass of `while (1)` can do, in terms of the classifier's answer. -/
theorem classify_iter_cases (B : Nat) (flags : flags_t) (dec : Decoders) (s : State) :
    ((∃ f, f ≠ Fault.memcpy_past_end ∧
      classify_iter B flags dec s = .fault f (after_call flags dec s)) ∧
      ¬ in_int (found_length flags dec s)) ∨
    (classify_iter B flags dec s = .ok (false, resynced (after_call flags dec s)) ∧
      (found_type flags dec s = .UNKNOWN ∨ found_length flags dec s = 0) ∧
      (found_type flags dec s = .UNKNOWN ∨ found_length flags dec s < s.curr_brain_sz)) ∨
    (classify_iter B flags dec s = .ok (false, after_call flags dec s) ∧
      found_type flags dec s ≠ .UNKNOWN ∧ found_length flags dec s ≥ s.curr_brain_sz) ∨
    (classify_iter B flags dec s =
        remove_record B (after_call flags dec s) (found_length flags dec s)
          (removal_event flags dec s) ∧
      found_type flags dec s ≠ .UNKNOWN ∧ found_length flags dec s < s.curr_brain_sz ∧
      found_length flags dec s ≠ 0) := by
  unfold classify_iter reset_break
  simp only [found_length, after_call, found_type, found_index, resynced, removal_event]
  cases hty : (dec.next_mp3_frame_or_id3v2 s.brain s.curr_brain_sz s.ignore_oob s.index
      flags.extract_mode).1
  · right; left
    exact ⟨rfl, Or.inl rfl, Or.inl rfl⟩
  · simp only
    generalize (dec.mp3_set_header s.brain _).audio_size +
      (dec.mp3_set_header s.brain _).header_size = L
    by_cases h1 : in_int L
    · by_cases h2 : L ≥ s.curr_brain_sz
      · right; right; left
        exact ⟨by simp [h1, h2], by simp, h2⟩
      · by_cases h3 : L = 0
        · right; left
          subst h3
          exact ⟨by simp [h1, h2], Or.inr rfl, Or.inr (not_le.mp h2)⟩
        · right; right; right
          exact ⟨by simp [h1, h2, h3], by simp, not_le.mp h2, h3⟩
    · left
      exact ⟨⟨Fault.int_overflow, by decide, by simp [h1]⟩, h1⟩
  · simp only
    generalize (dec.id3_set_header s.brain _).size +
      (10 + if (dec.id3_set_header s.brain _).footer = true then 10 else 0) = L
    by_cases h1 : in_int L
    · by_cases h2 : L ≥ s.curr_brain_sz
      · right; right; left
        exact ⟨by simp [h1, h2], by simp, h2⟩
      · by_cases h3 : L = 0
        · right; left
          subst h3
          exact ⟨by simp [h1, h2], Or.inr rfl, Or.inr (not_le.mp h2)⟩
        · right; right; right
          exact ⟨by simp [h1, h2, h3], by simp, not_le.mp h2, h3⟩
    · left
      exact ⟨⟨Fault.int_overflow, by decide, by simp [h1]⟩, h1⟩

/-- The four ways one pass of `while (1)` can end, each with the state it
leaves. -/
theorem classify_iter_outcomes (B : Nat) (flags : flags_t) (dec : Decoders) (s : State) :
    ((∃ f, f ≠ Fault.memcpy_past_end ∧
      classify_iter B flags dec s = .fault f (after_call flags dec s)) ∧
      (¬ in_int (found_length flags dec s) ∨
        ¬ in_int (found_length flags dec s + found_index flags dec s) ∨
        ¬ (0 ≤ found_length flags dec s + found_index flags dec s ∧
            found_length flags dec s + found_index flags dec s ≤ brain_sz B) ∨
        ¬ in_int (s.curr_brain_sz - (found_length flags dec s + found_index flags dec s)))) ∨
    (classify_iter B flags dec s = .ok (false, resynced (after_call flags dec s)) ∧
      (found_type flags dec s = .UNKNOWN ∨ found_length flags dec s = 0) ∧
      (found_type flags dec s = .UNKNOWN ∨ found_length flags dec s < s.curr_brain_sz)) ∨
    (classify_iter B flags dec s = .ok (false, after_call flags dec s) ∧
      found_type flags dec s ≠ .UNKNOWN ∧ found_length flags dec s ≥ s.curr_brain_sz) ∨
    (classify_iter B flags dec s = .ok (true, compacted B (after_call flags dec s)
        (found_length flags dec s) (removal_event flags dec s)) ∧
      found_type flags dec s ≠ .UNKNOWN ∧ found_length flags dec s < s.curr_brain_sz ∧
      found_length flags dec s ≠ 0 ∧
      0 ≤ found_length flags dec s + found_index flags dec s ∧
      found_length flags dec s + found_index flags dec s ≤ brain_sz B) := by
  rcases classify_iter_cases B flags dec s with ⟨h, hr⟩ | h | h | ⟨h, h1, h2, h3⟩
  · exact Or.inl ⟨h, Or.inl hr⟩
  · exact Or.inr (Or.inl h)
  · exact Or.inr (Or.inr (Or.inl h))
  · rcases remove_record_state B (after_call flags dec s) (found_length flags dec s)
      (removal_event flags dec s) with ⟨⟨f, hf, hr⟩, hw⟩ | ⟨hr, h4, h5⟩
    · exact Or.inl ⟨⟨f, hf, h.trans hr⟩, Or.inr hw⟩
    · exact Or.inr (Or.inr (Or.inr ⟨h.trans hr, h1, h2, h3, h4, h5⟩))

/-- The ways the append step of lines 163-174 can end. -/
theorem append_chunk_outcomes (B : Nat) (flags : flags_t) (s : State) (data : List Byte) :
    (∃ f, f ≠ Fault.memcpy_past_end ∧ append_chunk B flags s data = .fault f s) ∨
    (append_chunk B flags s data = .ok (overflowed s) ∧
      s.curr_brain_sz + (data.length : Int) > brain_sz B) ∨
    (append_chunk B flags s data = .ok (appended flags s data) ∧
      0 ≤ s.curr_brain_sz ∧ s.curr_brain_sz + (data.length : Int) ≤ brain_sz B) := by
  unfold append_chunk memcpy_brain overflowed appended
  simp only
  by_cases h1 : in_int (s.curr_brain_sz + (data.length : Int))
  · by_cases h2 : s.curr_brain_sz + (data.length : Int) > brain_sz B
    · right; left
      exact ⟨by simp [h1, h2], h2⟩
    · by_cases h3 : s.curr_brain_sz < 0
      · left
        exact ⟨Fault.memcpy_before_start, by decide, by simp [h1, h2, h3]⟩
      · right; right
        exact ⟨by simp [h1, h2, h3], not_lt.mp h3, not_lt.mp h2⟩
  · left
    exact ⟨Fault.int_overflow, by decide, by simp [h1]⟩

/-- A property of states that every step of the loop preserves holds in the
state in which any run ends, whether it finishes or faults. -/
theorem classify_iter_preserves (P : State → Prop) (B : Nat) (flags : flags_t)
    (dec : Decoders)
    (hcall : ∀ s, P s → P (after_call flags dec s))
    (hreset : ∀ s, P s → P (resynced s))
    (hremove : ∀ s, P s →
      0 ≤ found_length flags dec s + found_index flags dec s →
      found_length flags dec s + found_index flags dec s ≤ brain_sz B →
      found_type flags dec s ≠ .UNKNOWN →
      P (compacted B (after_call flags dec s) (found_length flags dec s)
        (removal_event flags dec s)))
    (s : State) (hs : P s) :
    (∀ c s1, classify_iter B flags dec s = .ok (c, s1) → P s1) ∧
    (∀ f s1, classify_iter B flags dec s = .fault f s1 → P s1 ∧ f ≠ Fault.memcpy_past_end) := by
  rcases classify_iter_outcomes B flags dec s with ⟨⟨f, hf, h⟩, -⟩ | ⟨h, -⟩ | ⟨h, -⟩ |
    ⟨h, h1, -, -, h4, h5⟩
  · rw [h]
    refine ⟨fun c s1 e => (by cases e), fun f1 s1 e => ?_⟩
    cases e
    exact ⟨hcall s hs, hf⟩
  · rw [h]
    refine ⟨fun c s1 e => ?_, fun f1 s1 e => by cases e⟩
    cases e
    exact hreset _ (hcall s hs)
  · rw [h]
    refine ⟨fun c s1 e => ?_, fun f1 s1 e => by cases e⟩
    cases e
    exact hcall s hs
  · rw [h]
    refine ⟨fun c s1 e => ?_, fun f1 s1 e => by cases e⟩
    cases e
    exact hremove s hs h4 h5 h1

theorem classify_loop_preserves (P : State → Prop) (B : Nat) (flags : flags_t)
    (dec : Decoders)
    (hcall : ∀ s, P s → P (after_call flags dec s))
    (hreset : ∀ s, P s → P (resynced s))
    (hremove : ∀ s, P s →
      0 ≤ found_length flags dec s + found_index flags dec s →
      found_length flags dec s + found_index flags dec s ≤ brain_sz B →
      found_type flags dec s ≠ .UNKNOWN →
      P (compacted B (after_call flags dec s) (found_length flags dec s)
        (removal_event flags dec s)))
    (fuel : Nat) (s : State) (hs : P s) :
    (∀ s1, classify_loop B flags dec fuel s = .ok s1 → P s1) ∧
    (∀ f s1, classify_loop B flags dec fuel s = .fault f s1 →
      P s1 ∧ f ≠ Fault.memcpy_past_end) := by
  induction fuel generalizing s with
  | zero =>
    refine ⟨fun s1 e => (by cases e), fun f s1 e => ?_⟩
    cases e
    exact ⟨hs, by decide⟩
  | succ n ih =>
    have hit := classify_iter_preserves P B flags dec hcall hreset hremove s hs
    unfold classify_loop
    cases hc : classify_iter B flags dec s with
    | fault f s2 =>
      refine ⟨fun s1 e => (by cases e), fun f1 s1 e => ?_⟩
      cases e
      exact hit.2 _ _ hc
    | ok p =>
      obtain ⟨c, s2⟩ := p
      have hp := hit.1 _ _ hc
      cases c with
      | true => exact ih s2 hp
      | false =>
        refine ⟨fun s1 e => ?_, fun f1 s1 e => by cases e⟩
        cases e
        exact hp

theorem read_loop_preserves (P : State → Prop) (B fuel : Nat) (flags : flags_t)
    (dec : Decoders)
    (hcall : ∀ s, P s → P (after_call flags dec s))
    (hreset : ∀ s, P s → P (resynced s))
    (hremove : ∀ s, P s →
      0 ≤ found_length flags dec s + found_index flags dec s →
      found_length flags dec s + found_index flags dec s ≤ brain_sz B →
      found_type flags dec s ≠ .UNKNOWN →
      P (compacted B (after_call flags dec s) (found_length flags dec s)
        (removal_event flags dec s)))
    (hover : ∀ s, P s → P (overflowed s))
    (happend : ∀ s data, P s → 0 ≤ s.curr_brain_sz →
      s.curr_brain_sz + (data.length : Int) ≤ brain_sz B → P (appended flags s data))
    (reads : List (List Byte)) (s : State) (hs : P s) :
    P (read_loop B fuel flags dec s reads).state ∧
    ∀ s1, read_loop B fuel flags dec s reads ≠ .fault Fault.memcpy_past_end s1 := by
  induction reads generalizing s with
  | nil => exact ⟨hs, fun s1 e => by cases e⟩
  | cons data rest ih =>
    unfold read_loop
    by_cases h0 : data.length = 0
    · simp only [h0, if_true]
      exact ⟨hs, fun s1 e => by cases e⟩
    · simp only [h0, if_false]
      have happ : ∀ s2, P s2 →
          (∀ s1, append_chunk B flags s2 data = .ok s1 → P s1) ∧
          (∀ f s1, append_chunk B flags s2 data = .fault f s1 →
            P s1 ∧ f ≠ Fault.memcpy_past_end) := by
        intro s2 hs2
        rcases append_chunk_outcomes B flags s2 data with ⟨f, hf, h⟩ | ⟨h, -⟩ | ⟨h, h1, h2⟩
        · rw [h]
          refine ⟨fun s1 e => (by cases e), fun f1 s1 e => ?_⟩
          cases e
          exact ⟨hs2, hf⟩
        · rw [h]
          refine ⟨fun s1 e => ?_, fun f1 s1 e => by cases e⟩
          cases e
          exact hover _ hs2
        · rw [h]
          refine ⟨fun s1 e => ?_, fun f1 s1 e => by cases e⟩
          cases e
          exact happend _ _ hs2 h1 h2
      have hbody : (∀ s1, loop_body B fuel flags dec s data = .ok s1 → P s1) ∧
          (∀ f s1, loop_body B fuel flags dec s data = .fault f s1 →
            P s1 ∧ f ≠ Fault.memcpy_past_end) := by
        unfold loop_body
        simp only
        by_cases h1 : in_int (s.curr_brain_sz + (data.length : Int))
        · simp only [h1, not_true_eq_false, if_false]
          by_cases h2 : s.curr_brain_sz + (data.length : Int) ≥ brain_sz B
          · simp only [h2, if_true]
            have hl := classify_loop_preserves P B flags dec hcall hreset hremove fuel s hs
            cases hc : classify_loop B flags dec fuel s with
            | fault f s2 =>
              refine ⟨fun s1 e => (by cases e), fun f1 s1 e => ?_⟩
              cases e
              exact hl.2 _ _ hc
            | ok s2 => exact happ s2 (hl.1 _ hc)
          · simp only [h2, if_false]
            exact happ s hs
        · simp only [h1, not_false_eq_true, if_true]
          refine ⟨fun s1 e => (by cases e), fun f1 s1 e => ?_⟩
          cases e
          exact ⟨hs, by decide⟩
      cases hb : loop_body B fuel flags dec s data with
      | fault f s2 =>
        have := hbody.2 _ _ hb
        refine ⟨this.1, fun s1 e => ?_⟩
        cases e
        exact this.2 rfl
      | ok s2 => exact ih s2 (hbody.1 _ hb)

/-! ## Lemmas for the one-frame stream -/

theorem frames_removed_append (t : List Event) (e : Event) :
    frames_removed (t ++ [e]) = frames_removed t + (if is_frame_removal e then 1 else 0) := by
  unfold frames_removed
  rw [List.filter_append, List.length_append]
  cases h : is_frame_removal e <;> simp [List.filter, h]

theorem classify_iter_unknown (B : Nat) (flags : flags_t) (dec : Decoders) (s : State)
    (hty : found_type flags dec s = STREAM_OBJECT.UNKNOWN) :
    classify_iter B flags dec s = .ok (false, resynced (after_call flags dec s)) := by
  simp only [found_type] at hty
  simp only [classify_iter, hty, resynced, after_call, found_index, reset_break]

theorem classify_iter_removes (B : Nat) (flags : flags_t) (dec : Decoders) (s : State)
    (hty : found_type flags dec s ≠ STREAM_OBJECT.UNKNOWN)
    (hlt : found_length flags dec s < s.curr_brain_sz)
    (hne : found_length flags dec s ≠ 0)
    (h1 : in_int (found_length flags dec s))
    (h2 : in_int (found_length flags dec s + found_index flags dec s))
    (h3 : 0 ≤ found_length flags dec s + found_index flags dec s)
    (h4 : found_length flags dec s + found_index flags dec s ≤ brain_sz B)
    (h5 : in_int (s.curr_brain_sz - (found_length flags dec s + found_index flags dec s))) :
    classify_iter B flags dec s = .ok (true, compacted B (after_call flags dec s)
        (found_length flags dec s) (removal_event flags dec s)) := by
  rcases classify_iter_outcomes B flags dec s with ⟨-, hw⟩ | ⟨-, h, h'⟩ | ⟨-, -, h⟩ | ⟨h, -⟩
  · exfalso
    rcases hw with hw | hw | hw | hw
    · exact hw h1
    · exact hw h2
    · exact hw ⟨h3, h4⟩
    · exact hw h5
  · exfalso
    rcases h with h | h
    · exact hty h
    · exact hne h
  · exfalso; omega
  · exact h

theorem append_chunk_fits (B : Nat) (flags : flags_t) (s : State) (data : List Byte)
    (h0 : 0 ≤ s.curr_brain_sz)
    (h1 : s.curr_brain_sz + (data.length : Int) ≤ brain_sz B)
    (hB : brain_sz B ≤ INT_MAX) :
    append_chunk B flags s data = .ok (appended flags s data) := by
  have hin : in_int (s.curr_brain_sz + (data.length : Int)) := by
    simp only [in_int, INT_MIN, INT_MAX] at hB ⊢
    omega
  have h2 : ¬ (s.curr_brain_sz + (data.length : Int) > brain_sz B) := by omega
  have h3 : ¬ (s.curr_brain_sz < 0) := by omega
  simp [append_chunk, memcpy_brain, appended, hin, h2, h3]

theorem appended_take (flags : flags_t) (s : State) (data : List Byte)
    (h0 : 0 ≤ s.curr_brain_sz) (h1 : s.curr_brain_sz.toNat ≤ s.brain.length) :
    (appended flags s data).brain.take (appended flags s data).curr_brain_sz.toNat =
      s.brain.take s.curr_brain_sz.toNat ++ data := by
  simp only [appended]
  have hl : (s.brain.take s.curr_brain_sz.toNat ++ data).length =
      (s.curr_brain_sz + (data.length : Int)).toNat := by
    rw [List.length_append, List.length_take, Nat.min_eq_left h1]
    omega
  rw [← hl, List.take_left']
  rfl

theorem appended_length (flags : flags_t) (s : State) (data : List Byte)
    (_h0 : 0 ≤ s.curr_brain_sz)
    (h1 : s.curr_brain_sz.toNat + data.length ≤ s.brain.length) :
    (appended flags s data).brain.length = s.brain.length := by
  simp only [appended, List.length_append, List.length_take, List.length_drop]
  omega


theorem classify_loop_break (B : Nat) (flags : flags_t) (dec : Decoders) (fuel : Nat)
    (s s1 : State) (h : classify_iter B flags dec s = .ok (false, s1)) :
    classify_loop B flags dec (fuel + 1) s = .ok s1 := by
  simp only [classify_loop, h]

theorem classify_loop_continue (B : Nat) (flags : flags_t) (dec : Decoders) (fuel : Nat)
    (s s1 : State) (h : classify_iter B flags dec s = .ok (true, s1)) :
    classify_loop B flags dec (fuel + 1) s = classify_loop B flags dec fuel s1 := by
  simp only [classify_loop, h]

theorem garbage_append (B : Nat) (flags : flags_t) (G : List Byte) (s : State)
    (d : List Byte) (rest : List (List Byte)) (hs : garbage_buffer B G s (d :: rest))
    (hfit : s.curr_brain_sz + (d.length : Int) ≤ brain_sz B)
    (hB : brain_sz B ≤ INT_MAX) :
    append_chunk B flags s d = .ok (appended flags s d) ∧
    garbage_buffer B G (appended flags s d) rest ∧
    (appended flags s d).trace = s.trace := by
  obtain ⟨hlen, h0, hle, A, hA⟩ := hs
  have hbs : brain_sz B = ((4 * B : Nat) : Int) := by simp [brain_sz]; ring
  refine ⟨append_chunk_fits B flags s d h0 hfit hB, ⟨?_, ?_, ?_, A, ?_⟩, rfl⟩
  · rw [appended_length flags s d h0 (by omega)]
    exact hlen
  · simp only [appended]; omega
  · simp only [appended]; exact hfit
  · rw [appended_take flags s d h0 (by omega), List.append_assoc]
    rw [List.flatten_cons] at hA
    exact hA

theorem garbage_resynced (B : Nat) (G : List Byte) (s : State) (rs : List (List Byte))
    (hs : garbage_buffer B G s rs) : garbage_buffer B G (resynced s) rs := by
  obtain ⟨hlen, h0, hle, A, hA⟩ := hs
  refine ⟨hlen, le_refl _, ?_, A ++ s.brain.take s.curr_brain_sz.toNat, ?_⟩
  · show (0 : Int) ≤ brain_sz B
    omega
  · simp only [resynced, Int.toNat_zero, List.take_zero, List.nil_append]
    rw [List.append_assoc]
    exact hA

theorem garbage_segment (B : Nat) (G : List Byte) (s : State) (rs : List (List Byte))
    (hs : garbage_buffer B G s rs) : s.brain.take s.curr_brain_sz.toNat <:+: G := by
  obtain ⟨-, -, -, A, hA⟩ := hs
  exact ⟨A, rs.flatten, by rw [List.append_assoc]; exact hA⟩

theorem garbage_body (B fuel : Nat) (flags : flags_t) (dec : Decoders) (G : List Byte)
    (hB : brain_sz B + B ≤ INT_MAX) (hfuel : 1 ≤ fuel)
    (hgarbage : ∀ brain n ign idx ext, brain.take n.toNat <:+: G →
      (dec.next_mp3_frame_or_id3v2 brain n ign idx ext).1 = STREAM_OBJECT.UNKNOWN)
    (s : State) (d : List Byte) (rest : List (List Byte))
    (hs : garbage_buffer B G s (d :: rest)) (hd : d.length ≤ B) :
    ∃ s1, loop_body B fuel flags dec s d = .ok s1 ∧ garbage_buffer B G s1 rest ∧
      frames_removed s1.trace = frames_removed s.trace := by
  have hbs : brain_sz B = ((4 * B : Nat) : Int) := by simp [brain_sz]; ring
  have hB0 : brain_sz B ≤ INT_MAX := by omega
  have hin : in_int (s.curr_brain_sz + (d.length : Int)) := by
    obtain ⟨-, h0, hle, -⟩ := hs
    simp only [in_int, INT_MIN, INT_MAX] at hB ⊢
    omega
  unfold loop_body
  simp only [hin, not_true_eq_false, if_false]
  by_cases htrig : s.curr_brain_sz + (d.length : Int) ≥ brain_sz B
  · simp only [htrig, if_true]
    obtain ⟨n, rfl⟩ : ∃ n, fuel = n + 1 := ⟨fuel - 1, by omega⟩
    have hty : found_type flags dec s = STREAM_OBJECT.UNKNOWN :=
      hgarbage _ _ _ _ _ (garbage_segment B G s _ hs)
    rw [classify_loop_break B flags dec n s _ (classify_iter_unknown B flags dec s hty)]
    simp only
    have hs2 : garbage_buffer B G (resynced (after_call flags dec s)) (d :: rest) :=
      garbage_resynced B G (after_call flags dec s) _ hs
    have hfit : (resynced (after_call flags dec s)).curr_brain_sz + (d.length : Int) ≤
        brain_sz B := by
      simp only [resynced]
      omega
    obtain ⟨h1, h2, h3⟩ := garbage_append B flags G _ d rest hs2 hfit hB0
    refine ⟨_, h1, h2, ?_⟩
    rw [h3]
    simp only [resynced, after_call, frames_removed_append, is_frame_removal]
    simp
  · simp only [htrig, if_false]
    obtain ⟨h1, h2, h3⟩ := garbage_append B flags G s d rest hs (by omega) hB0
    exact ⟨_, h1, h2, by rw [h3]⟩

theorem garbage_phase (B fuel : Nat) (flags : flags_t) (dec : Decoders) (G : List Byte)
    (hB : brain_sz B + B ≤ INT_MAX) (hfuel : 1 ≤ fuel)
    (hgarbage : ∀ brain n ign idx ext, brain.take n.toNat <:+: G →
      (dec.next_mp3_frame_or_id3v2 brain n ign idx ext).1 = STREAM_OBJECT.UNKNOWN)
    (rs : List (List Byte)) (s : State) (hs : garbage_buffer B G s rs)
    (hrs : ∀ d ∈ rs, d.length ≤ B) :
    ∃ s1, read_loop B fuel flags dec s rs = .ok s1 ∧
      frames_removed s1.trace = frames_removed s.trace := by
  induction rs generalizing s with
  | nil => exact ⟨s, rfl, rfl⟩
  | cons d rest ih =>
    unfold read_loop
    by_cases hd0 : d.length = 0
    · simp only [hd0, if_true]
      exact ⟨s, rfl, rfl⟩
    · simp only [hd0, if_false]
      obtain ⟨s1, h1, h2, h3⟩ := garbage_body B fuel flags dec G hB hfuel hgarbage s d rest hs
        (hrs d (List.mem_cons_self _ _))
      rw [h1]
      simp only
      obtain ⟨s2, h4, h5⟩ := ih s1 h2 (fun d' hd' => hrs d' (List.mem_cons_of_mem _ hd'))
      exact ⟨s2, h4, h5.trans h3⟩


theorem compacted_garbage (B : Nat) (flags : flags_t) (dec : Decoders) (F G1 G : List Byte)
    (s : State) (ev : Event) (rs : List (List Byte))
    (hs : prefix_buffer B (F ++ G1) s) (hpre : (F ++ G1).length ≤ 4 * B)
    (hG1 : G1 ++ rs.flatten = G)
    (hidx : found_index flags dec s = 0) :
    garbage_buffer B G (compacted B (after_call flags dec s) (F.length : Int) ev) rs := by
  obtain ⟨hlen, hcurr, htake⟩ := hs
  have hbs : brain_sz B = ((4 * B : Nat) : Int) := by simp [brain_sz]; ring
  rw [List.length_append] at hpre hcurr
  simp only [compacted, after_call, hidx, add_zero, garbage_buffer, Int.toNat_ofNat]
  refine ⟨?_, ?_, ?_, [], ?_⟩
  · rw [List.length_append, List.length_drop, List.length_drop, hlen]
    omega
  · omega
  · omega
  · have h1 : (s.curr_brain_sz - (F.length : Int)).toNat = G1.length := by omega
    rw [h1, List.take_append_of_le_length (by rw [List.length_drop]; omega),
      List.take_drop]
    have h2 : List.take (F.length + G1.length) s.brain = F ++ G1 := by
      rw [← List.length_append]; exact htake
    rw [h2, List.drop_left' rfl, List.nil_append]
    exact hG1

theorem frame_phase (B fuel : Nat) (flags : flags_t) (dec : Decoders) (F G : List Byte)
    (hB : brain_sz B + B ≤ INT_MAX) (hfuel : 2 ≤ fuel)
    (hF0 : 0 < F.length) (hF : F.length < 3 * B)
    (hframe : ∀ brain n ign idx ext, F <+: brain.take n.toNat →
      brain.take n.toNat <+: F ++ G → F.length < (brain.take n.toNat).length →
      dec.next_mp3_frame_or_id3v2 brain n ign idx ext = (STREAM_OBJECT.MP3_FRAME, 0) ∧
      (dec.mp3_set_header brain 0).audio_size + (dec.mp3_set_header brain 0).header_size =
        (F.length : Int))
    (hgarbage : ∀ brain n ign idx ext, brain.take n.toNat <:+: G →
      (dec.next_mp3_frame_or_id3v2 brain n ign idx ext).1 = STREAM_OBJECT.UNKNOWN)
    (hlong : 4 * B ≤ (F ++ G).length)
    (rs : List (List Byte)) (pre : List Byte) (s : State)
    (hs : prefix_buffer B pre s) (hpre : pre.length < 4 * B)
    (hstream : pre ++ rs.flatten = F ++ G)
    (hrs : ∀ d ∈ rs, 1 ≤ d.length ∧ d.length ≤ B) :
    ∃ s1, read_loop B fuel flags dec s rs = .ok s1 ∧
      frames_removed s1.trace = frames_removed s.trace + 1 := by
  have hbs : brain_sz B = ((4 * B : Nat) : Int) := by simp [brain_sz]; ring
  have hB0 : brain_sz B ≤ INT_MAX := by omega
  induction rs generalizing pre s with
  | nil =>
    exfalso
    simp only [List.flatten_nil, List.append_nil] at hstream
    rw [← hstream] at hlong
    omega
  | cons d rest ih =>
    obtain ⟨hd1, hdB⟩ := hrs d (List.mem_cons_self _ _)
    have hrest : ∀ d' ∈ rest, 1 ≤ d'.length ∧ d'.length ≤ B :=
      fun d' hd' => hrs d' (List.mem_cons_of_mem _ hd')
    obtain ⟨hlen, hcurr, htake⟩ := hs
    have hin : in_int (s.curr_brain_sz + (d.length : Int)) := by
      simp only [in_int, INT_MIN, INT_MAX] at hB ⊢
      omega
    unfold read_loop
    have hd0 : ¬ d.length = 0 := by omega
    simp only [hd0, if_false]
    unfold loop_body
    simp only [hin, not_true_eq_false, if_false]
    by_cases htrig : s.curr_brain_sz + (d.length : Int) ≥ brain_sz B
    · simp only [htrig, if_true]
      -- the frame is completely buffered
      have hprestream : pre <+: F ++ G := ⟨(d :: rest).flatten, hstream⟩
      have hFpre : F <+: pre :=
        List.prefix_of_prefix_length_le (List.prefix_append F G) hprestream (by omega)
      have hFlt : F.length < pre.length := by omega
      have hvalid : s.brain.take s.curr_brain_sz.toNat = pre := by
        rw [hcurr, Int.toNat_ofNat, htake]
      obtain ⟨G1, rfl⟩ := hFpre
      have hG : G1 ++ (d :: rest).flatten = G := by
        rw [List.append_assoc] at hstream
        exact List.append_cancel_left hstream
      -- first pass: the frame is found and removed
      have hcall := hframe s.brain s.curr_brain_sz s.ignore_oob s.index flags.extract_mode
        (by rw [hvalid]; exact List.prefix_append F G1)
        (by rw [hvalid]; exact hprestream) (by rw [hvalid]; exact hFlt)
      have hty : found_type flags dec s = STREAM_OBJECT.MP3_FRAME := by
        simp only [found_type, hcall.1]
      have hidx : found_index flags dec s = 0 := by
        simp only [found_index, hcall.1]
      have hL : found_length flags dec s = (F.length : Int) := by
        simp only [found_length, hty, hidx, hcall.2]
      have hev : removal_event flags dec s = Event.frame 0 (F.length : Int) := by
        simp only [removal_event, hty, hidx, hL]
      rw [List.length_append] at hcurr hpre
      obtain ⟨n, rfl⟩ : ∃ n, fuel = n + 2 := ⟨fuel - 2, by omega⟩
      have hrem := classify_iter_removes B flags dec s (by rw [hty]; decide)
        (by rw [hL]; omega) (by rw [hL]; omega)
        (by rw [hL]; simp only [in_int, INT_MIN, INT_MAX] at hB ⊢; omega)
        (by rw [hL, hidx]; simp only [in_int, INT_MIN, INT_MAX] at hB ⊢; omega)
        (by rw [hL, hidx]; omega) (by rw [hL, hidx]; omega)
        (by rw [hL, hidx]; simp only [in_int, INT_MIN, INT_MAX] at hB ⊢; omega)
      rw [classify_loop_continue B flags dec (n + 1) s _ hrem, hL, hev]
      -- second pass: only garbage is left
      have hs1 : garbage_buffer B G (compacted B (after_call flags dec s) (F.length : Int)
          (Event.frame 0 (F.length : Int))) (d :: rest) :=
        compacted_garbage B flags dec F G1 G s _ _ ⟨hlen, by rw [List.length_append]; exact hcurr,
          htake⟩ (by rw [List.length_append]; omega) hG hidx
      have hty1 := hgarbage _ _
        (compacted B (after_call flags dec s) (F.length : Int)
          (Event.frame 0 (F.length : Int))).ignore_oob
        (compacted B (after_call flags dec s) (F.length : Int)
          (Event.frame 0 (F.length : Int))).index flags.extract_mode
        (garbage_segment B G _ _ hs1)
      rw [classify_loop_break B flags dec n _ _ (classify_iter_unknown B flags dec _ hty1)]
      simp only
      -- the chunk is appended to the emptied buffer
      have hs2 : garbage_buffer B G (resynced (after_call flags dec
          (compacted B (after_call flags dec s) (F.length : Int)
            (Event.frame 0 (F.length : Int))))) (d :: rest) :=
        garbage_resynced B G (after_call flags dec
          (compacted B (after_call flags dec s) (F.length : Int)
            (Event.frame 0 (F.length : Int)))) _ hs1
      obtain ⟨h1, h2, h3⟩ := garbage_append B flags G _ d rest hs2
        (by simp only [resynced]; omega) hB0
      rw [h1]
      simp only
      obtain ⟨s3, h4, h5⟩ := garbage_phase B (n + 2) flags dec G hB (by omega) hgarbage rest _
        h2 (fun d' hd' => (hrest d' hd').2)
      refine ⟨s3, h4, ?_⟩
      rw [h5, h3]
      simp only [resynced, after_call, compacted, frames_removed_append, is_frame_removal]
      simp
    · simp only [htrig, if_false]
      rw [append_chunk_fits B flags s d (by omega) (by omega) hB0]
      simp only
      have hnew : prefix_buffer B (pre ++ d) (appended flags s d) := by
        refine ⟨?_, ?_, ?_⟩
        · rw [appended_length flags s d (by omega) (by omega)]
          exact hlen
        · simp only [appended, List.length_append, hcurr]
          push_cast
          rfl
        · have := appended_take flags s d (by omega) (by omega)
          have hc : (appended flags s d).curr_brain_sz.toNat = (pre ++ d).length := by
            simp only [appended, List.length_append, hcurr]
            omega
          rw [hc] at this
          rw [this, hcurr, Int.toNat_ofNat, htake]
      obtain ⟨s1, h1, h2⟩ := ih (pre ++ d) (appended flags s d) hnew
        (by rw [List.length_append]; omega)
        (by rw [List.append_assoc]; simpa using hstream) hrest
      exact ⟨s1, h1, h2⟩

/-! ## Lemmas for the response loop -/

theorem realloc_block_length (w : World) (old : List Byte) (size : Nat) :
    (realloc_block w old size).length = size := by
  simp only [realloc_block, List.length_append, List.length_take, List.length_map,
    List.length_range]
  omega

theorem grow_buf_bounded (B : Nat) (w : World) (a : Info) (recv_sz : Int)
    (ha : info_bounded B a) (h2 : recv_sz ≤ buf_blk_sz B) :
    (∀ a1, grow_buf B w a recv_sz = .ok a1 →
      a1.total_sz = a.total_sz ∧ 0 ≤ a1.n_buf_blks ∧
      a1.total_sz + recv_sz ≤ a1.n_buf_blks * buf_blk_sz B ∧
      ∀ blk, a1.buf = some blk → (blk.length : Int) = a1.n_buf_blks * buf_blk_sz B) ∧
    (∀ f a1, grow_buf B w a recv_sz = .fault f a1 → a1 = a ∧ f = InfoFault.int_overflow) := by
  obtain ⟨ht, hn, hle, hblk⟩ := ha
  unfold grow_buf
  by_cases c1 : in_int (recv_sz + a.total_sz)
  · by_cases c2 : in_int (a.n_buf_blks * buf_blk_sz B)
    · by_cases c3 : recv_sz + a.total_sz ≥ a.n_buf_blks * buf_blk_sz B
      · by_cases c4 : in_int (a.n_buf_blks + 1)
        · by_cases c5 : in_int ((a.n_buf_blks + 1) * buf_blk_sz B)
          · simp only [c1, c2, c3, c4, c5, not_true_eq_false, if_false, if_true]
            refine ⟨fun a1 e => ?_, fun f a1 e => by cases e⟩
            cases e
            have hmul : (a.n_buf_blks + 1) * buf_blk_sz B =
                a.n_buf_blks * buf_blk_sz B + buf_blk_sz B := by ring
            dsimp only
            refine ⟨rfl, by omega, by omega, ?_⟩
            · intro blk hb
              simp only [realloc] at hb
              by_cases c6 : w.realloc_ok ((a.n_buf_blks + 1) * buf_blk_sz B) = true
              · simp only [c6, if_true, Option.some.injEq] at hb
                rw [← hb, realloc_block_length]
                have : 0 ≤ (a.n_buf_blks + 1) * buf_blk_sz B := by
                  have : 0 ≤ buf_blk_sz B := by unfold buf_blk_sz; omega
                  positivity
                omega
              · simp [c6] at hb
          · simp only [c1, c2, c3, c4, c5, not_true_eq_false, not_false_eq_true, if_false,
              if_true]
            exact ⟨fun a1 e => (by cases e), fun f a1 e => by cases e; exact ⟨rfl, rfl⟩⟩
        · simp only [c1, c2, c3, c4, not_true_eq_false, not_false_eq_true, if_false, if_true]
          exact ⟨fun a1 e => (by cases e), fun f a1 e => by cases e; exact ⟨rfl, rfl⟩⟩
      · simp only [c1, c2, c3, not_true_eq_false, if_false]
        refine ⟨fun a1 e => ?_, fun f a1 e => by cases e⟩
        cases e
        exact ⟨rfl, hn, by omega, hblk⟩
    · simp only [c1, c2, not_true_eq_false, not_false_eq_true, if_false, if_true]
      exact ⟨fun a1 e => (by cases e), fun f a1 e => by cases e; exact ⟨rfl, rfl⟩⟩
  · simp only [c1, not_false_eq_true, if_true]
    exact ⟨fun a1 e => (by cases e), fun f a1 e => by cases e; exact ⟨rfl, rfl⟩⟩


theorem store_chunk_bounded (B : Nat) (a : Info) (data : List Byte)
    (h0 : 0 ≤ a.total_sz) (hn : 0 ≤ a.n_buf_blks)
    (hfit : a.total_sz + (data.length : Int) ≤ a.n_buf_blks * buf_blk_sz B)
    (hblk : ∀ blk, a.buf = some blk → (blk.length : Int) = a.n_buf_blks * buf_blk_sz B) :
    (∀ a1, store_chunk a data = .ok a1 →
      info_bounded B a1 ∧ a1.total_sz = a.total_sz + (data.length : Int) ∧
      ∃ blk blk1, a.buf = some blk ∧ a1.buf = some blk1 ∧
        blk1.take a1.total_sz.toNat = blk.take a.total_sz.toNat ++ data) ∧
    (∀ f a1, store_chunk a data = .fault f a1 →
      a1 = a ∧ f ≠ InfoFault.memcpy_past_block) := by
  unfold store_chunk
  cases hb : a.buf with
  | none =>
    simp only
    exact ⟨fun a1 e => (by cases e), fun f a1 e => by cases e; exact ⟨rfl, by decide⟩⟩
  | some blk =>
    have hl := hblk blk hb
    have c1 : ¬ a.total_sz < 0 := by omega
    have c2 : ¬ a.total_sz + (data.length : Int) > (blk.length : Int) := by omega
    simp only [c1, c2, if_false]
    refine ⟨fun a1 e => ?_, fun f a1 e => (by cases e)⟩
    cases e
    have hlen : (blk.take a.total_sz.toNat ++ data ++
        blk.drop (a.total_sz.toNat + data.length)).length = blk.length := by
      simp only [List.length_append, List.length_take, List.length_drop]
      omega
    refine ⟨⟨by dsimp only; omega, hn, by dsimp only; omega, ?_⟩, rfl, blk, _, rfl, rfl, ?_⟩
    · intro blk1 h1
      dsimp only at h1 ⊢
      simp only [Option.some.injEq] at h1
      rw [← h1, hlen]
      exact hl
    · dsimp only
      have h3 : (blk.take a.total_sz.toNat ++ data).length =
          (a.total_sz + (data.length : Int)).toNat := by
        rw [List.length_append, List.length_take]
        omega
      rw [← h3, List.take_left']
      rfl

theorem accumulate_step_bounded (B : Nat) (w : World) (a : Info) (data : List Byte)
    (ha : info_bounded B a) (hd : data.length ≤ B) :
    (∀ a1, accumulate_step B w a data = .ok a1 →
      info_bounded B a1 ∧ a1.total_sz = a.total_sz + (data.length : Int)) ∧
    (∀ f a1, accumulate_step B w a data = .fault f a1 →
      a1.total_sz ≤ a1.n_buf_blks * buf_blk_sz B ∧ a1.total_sz = a.total_sz ∧
      f ≠ InfoFault.memcpy_past_block) := by
  have hg := grow_buf_bounded B w a (data.length : Int) ha (by unfold buf_blk_sz; omega)
  unfold accumulate_step
  cases hgrow : grow_buf B w a (data.length : Int) with
  | fault f a1 =>
    simp only
    refine ⟨fun a2 e => (by cases e), fun f2 a2 e => ?_⟩
    cases e
    obtain ⟨h1, h2⟩ := hg.2 _ _ hgrow
    subst h1 h2
    exact ⟨ha.2.2.1, rfl, by decide⟩
  | ok a1 =>
    simp only
    obtain ⟨h1, h2, h3, h4⟩ := hg.1 _ hgrow
    have hs := store_chunk_bounded B a1 data (by rw [h1]; exact ha.1) h2 h3 h4
    refine ⟨fun a2 e => ?_, fun f2 a2 e => ?_⟩
    · obtain ⟨k1, k2, -⟩ := hs.1 _ e
      exact ⟨k1, by rw [k2, h1]⟩
    · obtain ⟨k1, k2⟩ := hs.2 _ _ e
      subst k1
      exact ⟨by omega, h1, k2⟩

theorem accumulate_bounded (B : Nat) (w : World) (reads : List (List Byte)) (a : Info)
    (ha : info_bounded B a) (hreads : ∀ d ∈ reads, 1 ≤ d.length ∧ d.length ≤ B) :
    (accumulate B w a reads).state.total_sz ≤
      (accumulate B w a reads).state.n_buf_blks * buf_blk_sz B ∧
    (∀ a1, accumulate B w a reads ≠ .fault InfoFault.memcpy_past_block a1) ∧
    (∀ a1, accumulate B w a reads = .ok a1 →
      info_bounded B a1 ∧
      a1.total_sz = a.total_sz + (((reads.map List.length).sum : Nat) : Int)) := by
  induction reads generalizing a with
  | nil =>
    simp only [accumulate, InfoOutcome.state, List.map_nil, List.sum_nil]
    refine ⟨ha.2.2.1, fun a1 e => (by cases e), fun a1 e => ?_⟩
    cases e
    exact ⟨ha, by simp⟩
  | cons d rest ih =>
    obtain ⟨hd1, hdB⟩ := hreads d (List.mem_cons_self _ _)
    have hrest : ∀ d' ∈ rest, 1 ≤ d'.length ∧ d'.length ≤ B :=
      fun d' hd' => hreads d' (List.mem_cons_of_mem _ hd')
    have hstep := accumulate_step_bounded B w a d ha hdB
    unfold accumulate
    have hd0 : ¬ d.length = 0 := by omega
    simp only [hd0, if_false]
    cases hs : accumulate_step B w a d with
    | fault f a1 =>
      simp only [InfoOutcome.state]
      obtain ⟨k1, -, k3⟩ := hstep.2 _ _ hs
      refine ⟨k1, fun a2 e => ?_, fun a2 e => (by cases e)⟩
      cases e
      exact k3 rfl
    | ok a1 =>
      simp only
      obtain ⟨k1, k2⟩ := hstep.1 _ hs
      obtain ⟨i1, i2, i3⟩ := ih a1 k1 hrest
      refine ⟨i1, i2, fun a2 e => ?_⟩
      obtain ⟨j1, j2⟩ := i3 a2 e
      refine ⟨j1, ?_⟩
      rw [j2, k2, List.map_cons, List.sum_cons]
      push_cast
      ring

/-! ## Capture (C1) -/

/-- C1 (the code departs from the claim). With capture mode enabled and
`DEFAULT_BLK_SZ = 4`, six successful reads of three bytes each are made; the
stream starts with the header of a frame longer than the buffer. At the sixth
read the classifier asks for more data, the chunk no longer fits, and the
`continue` of line 167 skips the `fwrite` of line 174: the capture file holds
the first five chunks only, not the concatenation of all six. -/
theorem capture_misses_dropped_chunk :
    all_flags.capture_mode = true ∧
    (∀ d ∈ capture_reads, 1 ≤ d.length ∧ d.length ≤ 4) ∧
    suck_data_from_stream 4 10 all_flags sync_decoder zeros16 capture_reads =
      .ok capture_final ∧
    capture_final.savefp = (capture_reads.take 5).flatten ∧
    capture_final.savefp ≠ capture_reads.flatten := by
  decide

/-! ## Compaction (C2) -/

/-- C2: compaction conservation. Whenever a pass of the classification loop
removes a frame or tag of total length `L = found_length` found at offset
`O = found_index` from a buffer that respects `curr_brain_sz ≤ brain_sz`, the
new `curr_brain_sz` is the old one minus `O + L`, and for every
`i < new curr_brain_sz` the new `brain[i]` is the old `brain[O + L + i]`. -/
theorem compaction_conservation (B : Nat) (flags : flags_t) (dec : Decoders) (s s1 : State)
    (hlen : s.brain.length = 4 * B)
    (hinv : s.curr_brain_sz ≤ brain_sz B)
    (hstep : classify_iter B flags dec s = .ok (true, s1)) :
    s1.curr_brain_sz = s.curr_brain_sz - (found_index flags dec s + found_length flags dec s) ∧
    ∀ i : Nat, (i : Int) < s1.curr_brain_sz →
      ∃ b, s1.brain[i]? = some b ∧
        s.brain[(found_index flags dec s + found_length flags dec s).toNat + i]? = some b := by
  rcases classify_iter_outcomes B flags dec s with ⟨⟨f, -, h⟩, -⟩ | ⟨h, -⟩ | ⟨h, -⟩ |
    ⟨h, -, -, -, h0, h1⟩
  · rw [h] at hstep; cases hstep
  · rw [h] at hstep; cases hstep
  · rw [h] at hstep; cases hstep
  · rw [h] at hstep
    simp only [Outcome.ok.injEq, Prod.mk.injEq, true_and] at hstep
    subst hstep
    simp only [compacted, after_call]
    have hk : found_index flags dec s + found_length flags dec s =
        found_length flags dec s + found_index flags dec s := by ring
    rw [hk]
    generalize found_length flags dec s + found_index flags dec s = k at h0 h1 ⊢
    refine ⟨rfl, ?_⟩
    intro i hi
    simp only [brain_sz] at h1 hinv
    have hi2 : k.toNat + i < s.brain.length := by omega
    have hi3 : i < (s.brain.drop k.toNat).length := by
      rw [List.length_drop]; omega
    refine ⟨s.brain[k.toNat + i], ?_, ?_⟩
    · rw [List.getElem?_append_left hi3, List.getElem?_drop]
      exact List.getElem?_eq_getElem hi2
    · exact List.getElem?_eq_getElem hi2

/-- C2 at a concrete buffer: twelve buffered bytes whose frame of length 6 sits
at offset 4; ten bytes are removed and the two remaining bytes move to the
front. -/
theorem compaction_conservation_witness :
    twelve_compacted.curr_brain_sz = twelve_buffered.curr_brain_sz -
      (found_index all_flags sync_decoder twelve_buffered +
        found_length all_flags sync_decoder twelve_buffered) ∧
    ∀ i : Nat, (i : Int) < twelve_compacted.curr_brain_sz →
      ∃ b, twelve_compacted.brain[i]? = some b ∧
        twelve_buffered.brain[(found_index all_flags sync_decoder twelve_buffered +
          found_length all_flags sync_decoder twelve_buffered).toNat + i]? = some b :=
  compaction_conservation 4 all_flags sync_decoder twelve_buffered twelve_compacted
    (by decide) (by decide) (by decide)

/-! ## The buffer bound (C3) -/

/-- C3: bounded buffer. For every block size, every sequence of reads, every
decoder and every fuel: the state in which the run ends (at the end of the
reads, or at a fault, which includes running out of fuel in the middle of the
classification loop) has `curr_brain_sz ≤ brain_sz`; every classifier call of
the run was made with `curr_brain_sz ≤ brain_sz`, so the bound also holds after
each pass of the classification loop; and no run ever stops because the
`memcpy` of line 170 would write past the end of `brain`. -/
theorem buffer_bounded (B fuel : Nat) (flags : flags_t) (dec : Decoders)
    (brain0 : List Byte) (reads : List (List Byte)) :
    (suck_data_from_stream B fuel flags dec brain0 reads).state.curr_brain_sz ≤ brain_sz B ∧
    (∀ c ign idx,
      Event.call c ign idx ∈ (suck_data_from_stream B fuel flags dec brain0 reads).state.trace →
        c ≤ brain_sz B) ∧
    ∀ s, suck_data_from_stream B fuel flags dec brain0 reads ≠
      .fault Fault.memcpy_past_end s := by
  have hB : (0 : Int) ≤ brain_sz B := by unfold brain_sz; omega
  unfold suck_data_from_stream
  have key := read_loop_preserves
    (fun s => s.curr_brain_sz ≤ brain_sz B ∧
      ∀ c ign idx, Event.call c ign idx ∈ s.trace → c ≤ brain_sz B)
    B fuel flags dec ?_ ?_ ?_ ?_ ?_ reads (init brain0) ?_
  · exact ⟨key.1.1, key.1.2, key.2⟩
  · intro s hs
    refine ⟨hs.1, fun c ign idx hmem => ?_⟩
    simp only [after_call, List.mem_append, List.mem_singleton, Event.call.injEq] at hmem
    rcases hmem with h | ⟨h, -, -⟩
    · exact hs.2 c ign idx h
    · rw [h]; exact hs.1
  · intro s hs
    refine ⟨hB, fun c ign idx hmem => ?_⟩
    simp only [resynced, List.mem_append, List.mem_singleton] at hmem
    rcases hmem with h | h
    · exact hs.2 c ign idx h
    · cases h
  · intro s hs h0 _ hty
    refine ⟨?_, fun c ign idx hmem => ?_⟩
    · simp only [compacted, after_call]
      omega
    · simp only [compacted, after_call, List.mem_append, List.mem_singleton,
        Event.call.injEq] at hmem
      rcases hmem with (h | ⟨h, -, -⟩) | h
      · exact hs.2 c ign idx h
      · rw [h]; exact hs.1
      · exfalso
        unfold removal_event at h
        cases hft : found_type flags dec s with
        | UNKNOWN => exact hty hft
        | MP3_FRAME => rw [hft] at h; cases h
        | ID3V2_TAG => rw [hft] at h; cases h
  · intro s hs
    refine ⟨hB, fun c ign idx hmem => ?_⟩
    simp only [overflowed, List.mem_append, List.mem_singleton] at hmem
    rcases hmem with h | h
    · exact hs.2 c ign idx h
    · cases h
  · intro s data hs _ h
    exact ⟨h, hs.2⟩
  · refine ⟨hB, fun c ign idx hmem => ?_⟩
    simp [init] at hmem

theorem frame6_decoder_garbage (brain : List Byte) (n : Int) (ign : Bool) (idx : Int)
    (ext : Bool) (h : brain.take n.toNat <:+: garbage12) :
    (frame6_decoder.next_mp3_frame_or_id3v2 brain n ign idx ext).1 =
      STREAM_OBJECT.UNKNOWN := by
  have hno : ¬ frame6 <:+: garbage12 := by decide
  have hp : frame6.isPrefixOf (brain.take n.toNat) = false := by
    rw [Bool.eq_false_iff]
    intro hpre
    exact hno ((List.isPrefixOf_iff_prefix.mp hpre).isInfix.trans h)
  simp only [frame6_decoder, hp]
  rfl

theorem frame6_decoder_frame6 (brain : List Byte) (n : Int) (ign : Bool) (idx : Int)
    (ext : Bool) (h : frame6 <+: brain.take n.toNat)
    (_h1 : brain.take n.toNat <+: frame6 ++ garbage12)
    (_h2 : frame6.length < (brain.take n.toNat).length) :
    frame6_decoder.next_mp3_frame_or_id3v2 brain n ign idx ext =
      (STREAM_OBJECT.MP3_FRAME, 0) ∧
    (frame6_decoder.mp3_set_header brain 0).audio_size +
      (frame6_decoder.mp3_set_header brain 0).header_size = (frame6.length : Int) := by
  have hp : frame6.isPrefixOf (brain.take n.toNat) = true := List.isPrefixOf_iff_prefix.mpr h
  constructor
  · simp only [frame6_decoder, hp]
    rfl
  · show (4 : Int) + 2 = ((6 : Nat) : Int)
    decide

/-! ## Resynchronisation on a stream of one frame and garbage (C4) -/

/-- C4 (counterexample). With `DEFAULT_BLK_SZ = 4` and the decoder that finds a
frame at its sync byte: a 6-byte frame followed by two garbage bytes, read as
two chunks, never reaches the classifier, and no frame is removed; a 14-byte
frame followed by garbage, read as 4, 4, 4, 1 and 4 bytes, meets the classifier
when 13 of its bytes are buffered, the next chunk does not fit, the buffer is
dropped, and no frame is removed either. -/
theorem one_frame_not_always_classified :
    short_reads.flatten = [255, 6, 1, 2, 3, 4] ++ [0, 0] ∧
    (∀ d ∈ short_reads, 1 ≤ d.length ∧ d.length ≤ 4) ∧
    (suck_data_from_stream 4 10 all_flags sync_decoder zeros16 short_reads).state.trace = [] ∧
    frames_removed
      (suck_data_from_stream 4 10 all_flags sync_decoder zeros16 short_reads).state.trace = 0 ∧
    long_frame_reads.flatten = [255, 14, 1, 1, 1, 1, 1, 1, 1, 1, 1, 1, 1, 1] ++ [0, 0, 0] ∧
    (∀ d ∈ long_frame_reads, 1 ≤ d.length ∧ d.length ≤ 4) ∧
    (suck_data_from_stream 4 10 all_flags sync_decoder zeros16 long_frame_reads).state.trace =
      [Event.call 13 true 0, Event.overflow] ∧
    frames_removed
      (suck_data_from_stream 4 10 all_flags sync_decoder zeros16 long_frame_reads).state.trace
        = 0 := by
  decide

/-- C4 (amended). Take a byte sequence `F ++ G`: one frame `F` of length
`0 < L < 3 * DEFAULT_BLK_SZ` followed by garbage `G`, at least `brain_sz` bytes
in all, and split it in any way into reads of 1 to `DEFAULT_BLK_SZ` bytes. The
decoder classifies this stream as one frame and garbage: on a buffer whose
valid part is an initial part of the stream that holds the whole frame and
more, it reports the frame at offset 0 with total length `L`; on a buffer whose
valid part is a run of consecutive bytes of the garbage part `G` of the stream
(whatever their values), it reports nothing. Then the read loop runs to the end
of the reads and removes exactly one frame. The block size is such that
`brain_sz + DEFAULT_BLK_SZ` fits an `int`, `brain` has `brain_sz` bytes, and
two passes of `while (1)` are enough. -/
theorem one_frame_then_garbage (B fuel : Nat) (flags : flags_t) (dec : Decoders)
    (brain0 : List Byte) (F G : List Byte) (reads : List (List Byte))
    (hB : brain_sz B + B ≤ INT_MAX) (hfuel : 2 ≤ fuel)
    (hbrain : brain0.length = 4 * B)
    (hF0 : 0 < F.length) (hF : F.length < 3 * B)
    (hlong : 4 * B ≤ (F ++ G).length)
    (hreads : ∀ d ∈ reads, 1 ≤ d.length ∧ d.length ≤ B)
    (hstream : reads.flatten = F ++ G)
    (hframe : ∀ brain n ign idx ext, F <+: brain.take n.toNat →
      brain.take n.toNat <+: F ++ G → F.length < (brain.take n.toNat).length →
      dec.next_mp3_frame_or_id3v2 brain n ign idx ext = (STREAM_OBJECT.MP3_FRAME, 0) ∧
      (dec.mp3_set_header brain 0).audio_size + (dec.mp3_set_header brain 0).header_size =
        (F.length : Int))
    (hgarbage : ∀ brain n ign idx ext, brain.take n.toNat <:+: G →
      (dec.next_mp3_frame_or_id3v2 brain n ign idx ext).1 = STREAM_OBJECT.UNKNOWN) :
    ∃ s, suck_data_from_stream B fuel flags dec brain0 reads = .ok s ∧
      frames_removed s.trace = 1 := by
  unfold suck_data_from_stream
  obtain ⟨s, h1, h2⟩ := frame_phase B fuel flags dec F G hB hfuel hF0 hF hframe hgarbage hlong
    reads [] (init brain0) ⟨hbrain, rfl, rfl⟩ (by simp only [List.length_nil]; omega)
    (by simpa using hstream) hreads
  exact ⟨s, h1, by rw [h2]; rfl⟩

/-- C4 (amended) at a concrete stream: `DEFAULT_BLK_SZ = 4`, the 6-byte frame
`frame6` followed by twelve garbage bytes among which every byte value of the
frame occurs, read as 4, 4, 4, 4 and 2 bytes, with the decoder that knows
`frame6` only. -/
theorem one_frame_then_garbage_witness :
    ∃ s, suck_data_from_stream 4 2 all_flags frame6_decoder zeros16 one_frame_reads = .ok s ∧
      frames_removed s.trace = 1 :=
  one_frame_then_garbage 4 2 all_flags frame6_decoder zeros16 frame6 garbage12 one_frame_reads
    (by decide) (by decide) (by decide) (by decide) (by decide) (by decide) (by decide)
    (by decide) frame6_decoder_frame6 frame6_decoder_garbage

/-! ## The concrete scenario (C5) -/

/-- C5 (counterexample). With `DEFAULT_BLK_SZ = 4` (window capacity 16) and the
decoder that finds each frame at its sync byte, the stream
`[4 junk][6-byte frame][6-byte frame]` does not end with two frames removed and
`curr_brain_sz = 0`: fed as two chunks of eight bytes, the run ends with one
frame removed and `curr_brain_sz = 8`; fed as four reads of four bytes (the
most one read can return), it ends with one frame removed and
`curr_brain_sz = 6`. -/
theorem scenario_not_two_frames :
    brain_sz 4 = 16 ∧
    suck_data_from_stream 4 10 all_flags sync_decoder zeros16 scenario_two_chunks =
      .ok scenario_two_final ∧
    frames_removed scenario_two_final.trace = 1 ∧
    scenario_two_final.curr_brain_sz = 8 ∧
    suck_data_from_stream 4 10 all_flags sync_decoder zeros16 scenario_four_reads =
      .ok scenario_four_final ∧
    frames_removed scenario_four_final.trace = 1 ∧
    scenario_four_final.curr_brain_sz = 6 := by
  decide

/-- C5 (amended). With `DEFAULT_BLK_SZ = 4` (window capacity 16), the stream
`[4 junk][6-byte frame][6-byte frame]` arrives as four reads of four bytes. The
classifier first runs at the fourth read, on the twelve bytes buffered so far
and with `ignore_oob` true on the scan that skips the four junk bytes; the
first frame (offset 4, length 6) is removed; the second frame, of which two
bytes are buffered, is left in place; after the fourth read is appended the
buffer holds exactly the second frame, `curr_brain_sz = 6`. -/
theorem scenario_four_reads_run :
    (∀ d ∈ scenario_four_reads, 1 ≤ d.length ∧ d.length ≤ 4) ∧
    scenario_four_reads.flatten =
      [0, 0, 0, 0] ++ [255, 6, 1, 2, 3, 4] ++ [255, 6, 5, 6, 7, 8] ∧
    suck_data_from_stream 4 10 all_flags sync_decoder zeros16 scenario_four_reads =
      .ok scenario_four_final ∧
    scenario_four_final.trace =
      [Event.call 12 true 0, Event.frame 4 6, Event.call 2 false 4] ∧
    scenario_four_final.curr_brain_sz = 6 ∧
    scenario_four_final.brain.take 6 = [255, 6, 5, 6, 7, 8] := by
  decide

/-! ## The overflow reset (C6) -/

/-- C6 (the code departs from the claim). With `DEFAULT_BLK_SZ = 4`, after four
reads the buffer holds 14 bytes and `ignore_oob` is false (a frame was removed,
then the classifier asked for more data). The fifth read of four bytes does not
fit: the iteration ends with `curr_brain_sz = 0` and the buffer bytes
untouched, but `ignore_oob` is still false; lines 166-167 do not set it. -/
theorem overflow_leaves_ignore_flag :
    (∀ d ∈ overflow_reads, 1 ≤ d.length ∧ d.length ≤ 4) ∧
    suck_data_from_stream 4 10 all_flags sync_decoder zeros16 (overflow_reads.take 4) =
      .ok overflow_before ∧
    overflow_before.curr_brain_sz + 4 > brain_sz 4 ∧
    loop_body 4 10 all_flags sync_decoder overflow_before [2, 2, 2, 2] = .ok overflow_final ∧
    suck_data_from_stream 4 10 all_flags sync_decoder zeros16 overflow_reads =
      .ok overflow_final ∧
    overflow_final.curr_brain_sz = 0 ∧
    overflow_final.brain = overflow_before.brain ∧
    overflow_final.ignore_oob = false := by
  decide

/-! ## Records that are not fully buffered (C7) -/

/-- C7 (the code departs from the claim). With `DEFAULT_BLK_SZ = 4`, twelve
bytes are buffered and the decoder reports a frame of length 5 at offset 10, so
the frame ends at 15, past the 12 buffered bytes. The test of line 114 compares
the length 5 alone with 12: the frame is removed, `curr_brain_sz` becomes `-3`
and `ignore_oob` false, and the classifier is called again with size `-3`. -/
theorem truncated_frame_is_consumed :
    (∀ d ∈ truncated_reads, 1 ≤ d.length ∧ d.length ≤ 4) ∧
    suck_data_from_stream 4 10 all_flags sync_decoder zeros16 (truncated_reads.take 3) =
      .ok truncated_before ∧
    found_type all_flags sync_decoder truncated_before = STREAM_OBJECT.MP3_FRAME ∧
    found_index all_flags sync_decoder truncated_before = 10 ∧
    found_length all_flags sync_decoder truncated_before = 5 ∧
    truncated_before.curr_brain_sz = 12 ∧
    found_index all_flags sync_decoder truncated_before +
      found_length all_flags sync_decoder truncated_before >
        truncated_before.curr_brain_sz ∧
    classify_iter 4 all_flags sync_decoder truncated_before = .ok (true, truncated_after) ∧
    truncated_after.curr_brain_sz = -3 ∧
    truncated_after.ignore_oob = false ∧
    suck_data_from_stream 4 10 all_flags sync_decoder zeros16 truncated_reads =
      .ok truncated_final ∧
    truncated_final.trace =
      [Event.call 12 true 0, Event.frame 10 5, Event.call (-3) false 10, Event.resync] := by
  decide

/-! ## Zero and negative frame lengths (C8) -/

/-- C8 (counterexample). A frame with a negative computed length is not treated
as "no candidate": with twelve bytes buffered and a frame of length `-1`
reported at offset 5, the pass removes `5 + (-1) = 4` bytes with `memmove`,
leaves `curr_brain_sz = 8`, clears `ignore_oob` and goes round again. And a
frame of length 0 reported when the buffer is empty ends the loop through the
test of line 114 without setting `ignore_oob`. -/
theorem nonpositive_length_not_always_resync :
    found_type all_flags negative_length_decoder twelve_buffered = STREAM_OBJECT.MP3_FRAME ∧
    found_length all_flags negative_length_decoder twelve_buffered = -1 ∧
    classify_iter 4 all_flags negative_length_decoder twelve_buffered =
      .ok (true, negative_length_after) ∧
    negative_length_after.curr_brain_sz = 8 ∧
    negative_length_after.ignore_oob = false ∧
    negative_length_after.brain ≠ twelve_buffered.brain ∧
    classify_iter 4 all_flags end_aligned_decoder twelve_buffered = .ok (true, emptied) ∧
    found_type all_flags end_aligned_decoder emptied = STREAM_OBJECT.MP3_FRAME ∧
    found_length all_flags end_aligned_decoder emptied = 0 ∧
    classify_iter 4 all_flags end_aligned_decoder emptied =
      .ok (false, after_call all_flags end_aligned_decoder emptied) ∧
    (after_call all_flags end_aligned_decoder emptied).ignore_oob = false := by
  decide

/-- C8 (amended). For every classification pass on a non-empty buffer
(`0 < curr_brain_sz`) in which the decoder reports a frame whose computed total
length `header_size + audio_size` is zero, the pass does exactly what it does
for a decoder `dec0` that reports "unknown" and leaves the same `index`:
`curr_brain_sz` becomes 0, `ignore_oob` true, the loop is left, and `brain` is
not touched. -/
theorem zero_length_frame_resyncs (B : Nat) (flags : flags_t) (dec dec0 : Decoders)
    (s : State)
    (hty : found_type flags dec s = STREAM_OBJECT.MP3_FRAME)
    (hlen : found_length flags dec s = 0)
    (hpos : 0 < s.curr_brain_sz)
    (hty0 : found_type flags dec0 s = STREAM_OBJECT.UNKNOWN)
    (hidx0 : found_index flags dec0 s = found_index flags dec s) :
    classify_iter B flags dec s = classify_iter B flags dec0 s ∧
    classify_iter B flags dec s =
      .ok (false, { s with index := found_index flags dec s,
                           curr_brain_sz := 0,
                           ignore_oob := true,
                           trace := s.trace ++
                             [Event.call s.curr_brain_sz s.ignore_oob s.index, Event.resync] }) ∧
    (∀ fuel, classify_loop B flags dec (fuel + 1) s =
      .ok { s with index := found_index flags dec s,
                   curr_brain_sz := 0,
                   ignore_oob := true,
                   trace := s.trace ++
                     [Event.call s.curr_brain_sz s.ignore_oob s.index, Event.resync] }) := by
  have h1 : classify_iter B flags dec s = .ok (false, resynced (after_call flags dec s)) := by
    simp only [found_type, found_length, found_index] at hty hlen
    rw [hty] at hlen
    simp only at hlen
    have hnot : ¬ ((0 : Int) ≥ s.curr_brain_sz) := by omega
    simp only [classify_iter, hty, hlen, resynced, after_call, found_index, reset_break]
    simp [in_int, INT_MIN, INT_MAX, hnot]
  have h2 : classify_iter B flags dec0 s = .ok (false, resynced (after_call flags dec0 s)) := by
    simp only [found_type] at hty0
    simp only [classify_iter, hty0, resynced, after_call, found_index, reset_break]
  have h3 : after_call flags dec0 s = after_call flags dec s := by
    simp only [after_call, hidx0]
  have h4 : resynced (after_call flags dec s) =
      { s with index := found_index flags dec s,
               curr_brain_sz := 0,
               ignore_oob := true,
               trace := s.trace ++
                 [Event.call s.curr_brain_sz s.ignore_oob s.index, Event.resync] } := by
    simp [resynced, after_call]
  refine ⟨?_, ?_, ?_⟩
  · rw [h1, h2, h3]
  · rw [h1, h4]
  · intro fuel
    unfold classify_loop
    rw [h1, h4]

/-- C8 (amended) at a concrete buffer: twelve buffered bytes, a decoder that
reports a frame of length 0 at offset 0, compared with a decoder that reports
"unknown". -/
theorem zero_length_frame_resyncs_witness :
    classify_iter 4 all_flags zero_length_decoder twelve_buffered =
      classify_iter 4 all_flags unknown_decoder twelve_buffered ∧
    classify_iter 4 all_flags zero_length_decoder twelve_buffered =
      .ok (false, { twelve_buffered with
                      index := found_index all_flags zero_length_decoder twelve_buffered,
                      curr_brain_sz := 0,
                      ignore_oob := true,
                      trace := twelve_buffered.trace ++
                        [Event.call twelve_buffered.curr_brain_sz twelve_buffered.ignore_oob
                          twelve_buffered.index, Event.resync] }) ∧
    (∀ fuel, classify_loop 4 all_flags zero_length_decoder (fuel + 1) twelve_buffered =
      .ok { twelve_buffered with
              index := found_index all_flags zero_length_decoder twelve_buffered,
              curr_brain_sz := 0,
              ignore_oob := true,
              trace := twelve_buffered.trace ++
                [Event.call twelve_buffered.curr_brain_sz twelve_buffered.ignore_oob
                  twelve_buffered.index, Event.resync] }) :=
  zero_length_frame_resyncs 4 all_flags zero_length_decoder unknown_decoder twelve_buffered
    (by decide) (by decide) (by decide) (by decide) (by decide)

/-! ## The ignore flag (C9) -/

theorem armed_after_append (armed : Bool) (t : List Event) (e : Event) :
    armed_after armed (t ++ [e]) = armed_step (armed_after armed t) e := by
  simp [armed_after, List.foldl_append]

theorem calls_respect_append (armed : Bool) (t : List Event) (e : Event) :
    calls_respect armed (t ++ [e]) =
      (calls_respect armed t && call_respects (armed_after armed t) e) := by
  induction t generalizing armed with
  | nil => simp [calls_respect, armed_after]
  | cons a rest ih =>
    rw [List.cons_append]
    simp only [calls_respect]
    rw [ih]
    simp only [armed_after, List.foldl_cons, Bool.and_assoc]

/-- C9: first-window immunity. For every block size, every sequence of reads,
every decoder and every fuel, in the trace of the run (finished or stopped by
a fault) every classifier call made while the flag is armed, that is before
the first removal of a frame or tag and between a reset of the classification
loop and the next removal, is passed `ignore_oob = true`; and whenever the flag
is armed at the end of the trace, `ignore_oob` is true, so that `ignore_oob`
is false only after a removal. -/
theorem first_window_immunity (B fuel : Nat) (flags : flags_t) (dec : Decoders)
    (brain0 : List Byte) (reads : List (List Byte)) :
    calls_respect true (suck_data_from_stream B fuel flags dec brain0 reads).state.trace
      = true ∧
    (armed_after true (suck_data_from_stream B fuel flags dec brain0 reads).state.trace = true →
      (suck_data_from_stream B fuel flags dec brain0 reads).state.ignore_oob = true) := by
  unfold suck_data_from_stream
  have hcall : ∀ s : State,
      (calls_respect true s.trace = true ∧
        (armed_after true s.trace = true → s.ignore_oob = true)) →
      (calls_respect true (after_call flags dec s).trace = true ∧
        (armed_after true (after_call flags dec s).trace = true →
          (after_call flags dec s).ignore_oob = true)) := by
    intro s hs
    simp only [after_call, calls_respect_append, armed_after_append, armed_step, call_respects,
      Bool.and_eq_true, Bool.or_eq_true, Bool.not_eq_true']
    refine ⟨⟨hs.1, ?_⟩, hs.2⟩
    cases h : armed_after true s.trace with
    | false => exact Or.inl rfl
    | true => exact Or.inr (hs.2 h)
  refine (read_loop_preserves
    (fun s => calls_respect true s.trace = true ∧
      (armed_after true s.trace = true → s.ignore_oob = true))
    B fuel flags dec hcall ?_ ?_ ?_ ?_ reads (init brain0) ?_).1
  · intro s hs
    simp only [resynced, calls_respect_append, armed_after_append, armed_step, call_respects,
      Bool.and_true]
    exact ⟨hs.1, fun _ => trivial⟩
  · intro s hs _ _ hty
    have hs1 := hcall s hs
    have hev : call_respects (armed_after true (after_call flags dec s).trace)
          (removal_event flags dec s) = true ∧
        armed_step (armed_after true (after_call flags dec s).trace)
          (removal_event flags dec s) = false := by
      unfold removal_event
      cases hft : found_type flags dec s with
      | UNKNOWN => exact absurd hft hty
      | MP3_FRAME => exact ⟨rfl, rfl⟩
      | ID3V2_TAG => exact ⟨rfl, rfl⟩
    simp only [compacted, calls_respect_append, armed_after_append, hev.1, hev.2, hs1.1,
      Bool.and_self]
    exact ⟨trivial, fun h => by cases h⟩
  · intro s hs
    simp only [overflowed, calls_respect_append, armed_after_append, armed_step, call_respects,
      Bool.and_true]
    exact hs
  · intro s data hs _ _
    exact hs
  · exact ⟨rfl, fun _ => rfl⟩

/-! ## Tag length (C10) -/

/-- C10 (counterexample). A tag that is fully buffered and fills the buffer
exactly is not removed: twelve bytes are buffered, the decoder reports at
offset 0 a tag of declared size 2 without footer, total length
`2 + 10 = 12`; the pass leaves the loop with all twelve bytes still buffered. -/
theorem exactly_filling_tag_not_removed :
    found_type all_flags tag_decoder twelve_buffered = STREAM_OBJECT.ID3V2_TAG ∧
    found_index all_flags tag_decoder twelve_buffered = 0 ∧
    (tag_decoder.id3_set_header twelve_buffered.brain 0).size = 2 ∧
    (tag_decoder.id3_set_header twelve_buffered.brain 0).footer = false ∧
    (0 : Int) + 2 + 10 + 0 ≤ twelve_buffered.curr_brain_sz ∧
    classify_iter 4 all_flags tag_decoder twelve_buffered =
      .ok (false, after_call all_flags tag_decoder twelve_buffered) ∧
    (after_call all_flags tag_decoder twelve_buffered).curr_brain_sz = 12 ∧
    (after_call all_flags tag_decoder twelve_buffered).brain = twelve_buffered.brain := by
  decide

/-- C10 (amended). For every fully buffered tag candidate at offset `O ≥ 0`
with declared size `d ≥ 0` and footer flag `f`, in a buffer that respects
`curr_brain_sz ≤ brain_sz`: the completeness test compares
`d + 10 + (10 if f else 0)` with `curr_brain_sz`; when that total is smaller
than `curr_brain_sz`, exactly `O + d + 10 + (10 if f else 0)` bytes are removed
from the front of the buffer; otherwise (the tag fills the buffer exactly) the
loop is left and nothing is removed. -/
theorem tag_record_length (B : Nat) (flags : flags_t) (dec : Decoders) (s : State)
    (O d : Int) (f : Bool)
    (hty : found_type flags dec s = STREAM_OBJECT.ID3V2_TAG)
    (hidx : found_index flags dec s = O)
    (hsize : (dec.id3_set_header s.brain O).size = d)
    (hfooter : (dec.id3_set_header s.brain O).footer = f)
    (hO : 0 ≤ O) (hd : 0 ≤ d)
    (hfull : O + d + 10 + (if f then 10 else 0) ≤ s.curr_brain_sz)
    (hinv : s.curr_brain_sz ≤ brain_sz B)
    (hB : brain_sz B ≤ INT_MAX) :
    classify_iter B flags dec s =
      if d + 10 + (if f then 10 else 0) ≥ s.curr_brain_sz then
        .ok (false, after_call flags dec s)
      else
        .ok (true,
          { s with
              brain := s.brain.drop (O + d + 10 + (if f then 10 else 0)).toNat ++
                s.brain.drop (brain_sz B - (O + d + 10 + (if f then 10 else 0))).toNat,
              curr_brain_sz := s.curr_brain_sz - (O + d + 10 + (if f then 10 else 0)),
              ignore_oob := false,
              index := O,
              trace := s.trace ++
                [Event.call s.curr_brain_sz s.ignore_oob s.index,
                 Event.tag O (d + 10 + (if f then 10 else 0))] }) := by
  have hlen : found_length flags dec s = d + 10 + (if f then 10 else 0) := by
    simp only [found_length, hty, hidx, hsize, hfooter]
    ring
  have hf0 : (0 : Int) ≤ (if f then 10 else 0) := by split <;> decide
  have hOT : O + d + 10 + (if f = true then (10 : Int) else 0) =
      O + (d + 10 + (if f = true then (10 : Int) else 0)) := by ring
  rw [hOT] at hfull
  simp only [hOT]
  generalize hT : d + 10 + (if f = true then (10 : Int) else 0) = T at hlen hfull ⊢
  have hfull2 : O + T ≤ s.curr_brain_sz := hfull
  have hT10 : 10 ≤ T := by rw [← hT]; omega
  rcases classify_iter_outcomes B flags dec s with ⟨-, hw⟩ | ⟨h, h1, -⟩ | ⟨h, -, h1⟩ |
    ⟨h, -, h1, -, -, -⟩
  · exfalso
    rw [hlen, hidx] at hw
    simp only [in_int, INT_MIN, INT_MAX] at hw hB
    omega
  · exfalso
    rcases h1 with h1 | h1
    · rw [hty] at h1; cases h1
    · omega
  · rw [h, if_pos (by omega)]
  · have hlt : ¬ (T ≥ s.curr_brain_sz) := by omega
    rw [h, if_neg hlt]
    have hev : removal_event flags dec s = Event.tag O T := by
      simp only [removal_event, hty, hidx, hlen]
    have hk : T + O = O + T := by ring
    simp only [compacted, after_call, hlen, hidx, hev, hk, List.append_assoc,
      List.singleton_append]

/-- C10 (amended) at a concrete buffer: sixteen buffered bytes and a tag of
declared size 2 without footer at offset 0; twelve bytes are removed. -/
theorem tag_record_length_witness :
    classify_iter 4 all_flags tag_decoder sixteen_buffered =
      if (2 : Int) + 10 + (if false then 10 else 0) ≥ sixteen_buffered.curr_brain_sz then
        .ok (false, after_call all_flags tag_decoder sixteen_buffered)
      else
        .ok (true,
          { sixteen_buffered with
              brain := sixteen_buffered.brain.drop
                  ((0 : Int) + 2 + 10 + (if false then 10 else 0)).toNat ++
                sixteen_buffered.brain.drop
                  (brain_sz 4 - ((0 : Int) + 2 + 10 + (if false then 10 else 0))).toNat,
              curr_brain_sz := sixteen_buffered.curr_brain_sz -
                ((0 : Int) + 2 + 10 + (if false then 10 else 0)),
              ignore_oob := false,
              index := 0,
              trace := sixteen_buffered.trace ++
                [Event.call sixteen_buffered.curr_brain_sz sixteen_buffered.ignore_oob
                  sixteen_buffered.index,
                 Event.tag 0 ((2 : Int) + 10 + (if false then 10 else 0))] }) :=
  tag_record_length 4 all_flags tag_decoder sixteen_buffered 0 2 false
    (by decide) (by decide) (by decide) (by decide) (by decide) (by decide) (by decide)
    (by decide) (by decide)

/-! ## The redirect (C11) -/

/-- C11 (the code departs from the claim). The first connection delivers no
byte, so the body holds no `http://`. The response loop leaves `buf` at `NULL`,
both branches of lines 221-227 are skipped, and `get_stream_info` goes on with
the indeterminate content of `newhost`: it closes the descriptor, calls
`connect_host` for that host, and in a world where the call succeeds it enters
the stream read loop and returns 1, after which `handle_as_stream` closes the
descriptor as for a served session. In a world where that host does not
resolve it returns 0, but only after it has closed the descriptor and called
`connect_host`. With the body `nop`, which is not empty, the same function
returns 0 right after the response loop. -/
theorem empty_response_still_reconnects :
    silent_world.response.flatten = [] ∧
    strstr silent_world.response.flatten http_marker = none ∧
    get_stream_info 4 10 all_flags sync_decoder zeros16 silent_world 3 =
      { ret := some 1,
        actions := [Action.write 3, Action.close 3,
          Action.connect_host [111, 108, 100] 80 4, Action.write 4, Action.create_file,
          Action.suck_data 4, Action.free, Action.fclose] } ∧
    handle_as_stream 4 10 all_flags sync_decoder zeros16 silent_world [117] =
      [Action.connect_host [] 0 3, Action.write 3, Action.close 3,
        Action.connect_host [111, 108, 100] 80 4, Action.write 4, Action.create_file,
        Action.suck_data 4, Action.free, Action.fclose, Action.close 3] ∧
    get_stream_info 4 10 all_flags sync_decoder zeros16 unresolved_world 3 =
      { ret := some 0,
        actions := [Action.write 3, Action.close 3,
          Action.connect_host [111, 108, 100] 80 0] } ∧
    strstr plain_world.response.flatten http_marker = none ∧
    get_stream_info 4 10 all_flags sync_decoder zeros16 plain_world 3 =
      { ret := some 0, actions := [Action.write 3] } ∧
    handle_as_stream 4 10 all_flags sync_decoder zeros16 plain_world [117] =
      [Action.connect_host [] 0 3, Action.write 3] := by
  decide

theorem classify_iter_gather (B : Nat) (flags : flags_t) (dec : Decoders) (s : State)
    (hty : found_type flags dec s ≠ STREAM_OBJECT.UNKNOWN)
    (hin : in_int (found_length flags dec s))
    (hge : found_length flags dec s ≥ s.curr_brain_sz) :
    classify_iter B flags dec s = .ok (false, after_call flags dec s) := by
  rcases classify_iter_cases B flags dec s with ⟨-, hw⟩ | ⟨-, -, h⟩ | ⟨h, -⟩ | ⟨-, -, h, -⟩
  · exact absurd hin hw
  · rcases h with h | h
    · exact absurd h hty
    · omega
  · exact h
  · omega

/-! ## Fully present records (C12) -/

/-- C12 (counterexample). Twelve bytes are buffered and the decoder reports at
offset 0 a frame of total length 12: the frame is fully present and fills the
buffer exactly. The pass leaves the loop to wait for more data; nothing is
removed. -/
theorem exactly_filling_frame_waits :
    found_type all_flags filling_frame_decoder twelve_buffered = STREAM_OBJECT.MP3_FRAME ∧
    found_index all_flags filling_frame_decoder twelve_buffered = 0 ∧
    found_length all_flags filling_frame_decoder twelve_buffered = 12 ∧
    twelve_buffered.curr_brain_sz = 12 ∧
    classify_iter 4 all_flags filling_frame_decoder twelve_buffered =
      .ok (false, after_call all_flags filling_frame_decoder twelve_buffered) ∧
    (after_call all_flags filling_frame_decoder twelve_buffered).curr_brain_sz = 12 ∧
    (after_call all_flags filling_frame_decoder twelve_buffered).brain =
      twelve_buffered.brain := by
  decide

/-- C12 (amended). For every classification pass in which the decoder reports
a frame or tag at offset `O ≥ 0` with total length `L > 0` and
`O + L ≤ curr_brain_sz`, in a buffer with `curr_brain_sz ≤ brain_sz`: the pass
removes `O + L` bytes and goes round again when `L < curr_brain_sz`; in the one
remaining case, `O = 0` and `L = curr_brain_sz`, it leaves the loop to wait for
more data and removes nothing. -/
theorem present_record_consumed (B : Nat) (flags : flags_t) (dec : Decoders) (s : State)
    (hty : found_type flags dec s ≠ STREAM_OBJECT.UNKNOWN)
    (hO : 0 ≤ found_index flags dec s)
    (hL : 0 < found_length flags dec s)
    (hfull : found_index flags dec s + found_length flags dec s ≤ s.curr_brain_sz)
    (hinv : s.curr_brain_sz ≤ brain_sz B)
    (hB : brain_sz B ≤ INT_MAX) :
    classify_iter B flags dec s =
      (if found_length flags dec s ≥ s.curr_brain_sz then
        .ok (false, after_call flags dec s)
      else
        .ok (true, compacted B (after_call flags dec s) (found_length flags dec s)
          (removal_event flags dec s))) ∧
    (compacted B (after_call flags dec s) (found_length flags dec s)
        (removal_event flags dec s)).curr_brain_sz =
      s.curr_brain_sz - (found_index flags dec s + found_length flags dec s) ∧
    (found_length flags dec s ≥ s.curr_brain_sz ↔
      (found_index flags dec s = 0 ∧ found_length flags dec s = s.curr_brain_sz)) := by
  have hin : in_int (found_length flags dec s) := by
    simp only [in_int, INT_MIN, INT_MAX] at hB ⊢
    omega
  refine ⟨?_, ?_, ?_⟩
  · by_cases hge : found_length flags dec s ≥ s.curr_brain_sz
    · rw [if_pos hge]
      exact classify_iter_gather B flags dec s hty hin hge
    · rw [if_neg hge]
      exact classify_iter_removes B flags dec s hty (by omega) (by omega) hin
        (by simp only [in_int, INT_MIN, INT_MAX] at hB ⊢; omega) (by omega) (by omega)
        (by simp only [in_int, INT_MIN, INT_MAX] at hB ⊢; omega)
  · simp only [compacted, after_call]
    ring
  · constructor
    · intro h
      constructor <;> omega
    · rintro ⟨-, h⟩
      omega

/-- C12 (amended) at a concrete buffer: twelve buffered bytes whose 6-byte
frame sits at offset 4. -/
theorem present_record_consumed_witness :
    classify_iter 4 all_flags sync_decoder twelve_buffered =
      (if found_length all_flags sync_decoder twelve_buffered ≥
          twelve_buffered.curr_brain_sz then
        .ok (false, after_call all_flags sync_decoder twelve_buffered)
      else
        .ok (true, compacted 4 (after_call all_flags sync_decoder twelve_buffered)
          (found_length all_flags sync_decoder twelve_buffered)
          (removal_event all_flags sync_decoder twelve_buffered))) ∧
    (compacted 4 (after_call all_flags sync_decoder twelve_buffered)
        (found_length all_flags sync_decoder twelve_buffered)
        (removal_event all_flags sync_decoder twelve_buffered)).curr_brain_sz =
      twelve_buffered.curr_brain_sz -
        (found_index all_flags sync_decoder twelve_buffered +
          found_length all_flags sync_decoder twelve_buffered) ∧
    (found_length all_flags sync_decoder twelve_buffered ≥ twelve_buffered.curr_brain_sz ↔
      (found_index all_flags sync_decoder twelve_buffered = 0 ∧
        found_length all_flags sync_decoder twelve_buffered =
          twelve_buffered.curr_brain_sz)) :=
  present_record_consumed 4 all_flags sync_decoder twelve_buffered
    (by decide) (by decide) (by decide) (by decide) (by decide) (by decide)

theorem cursor_known_append (known : Option Int) (t : List Event) (e : Event) :
    cursor_known known (t ++ [e]) = cursor_step (cursor_known known t) e := by
  simp [cursor_known, List.foldl_append]

theorem calls_follow_cursor_append (known : Option Int) (t : List Event) (e : Event) :
    calls_follow_cursor known (t ++ [e]) =
      (calls_follow_cursor known t && call_follows (cursor_known known t) e) := by
  induction t generalizing known with
  | nil => simp [calls_follow_cursor, cursor_known]
  | cons a rest ih =>
    rw [List.cons_append]
    simp only [calls_follow_cursor]
    rw [ih]
    simp only [cursor_known, List.foldl_cons, Bool.and_assoc]

theorem classify_iter_index (B : Nat) (flags : flags_t) (dec : Decoders) (s : State)
    (c : Bool) (s1 : State) (h : classify_iter B flags dec s = .ok (c, s1)) :
    s1.index = found_index flags dec s := by
  rcases classify_iter_outcomes B flags dec s with ⟨⟨f, -, e⟩, -⟩ | ⟨e, -⟩ | ⟨e, -⟩ | ⟨e, -⟩
  · rw [e] at h; cases h
  · rw [e] at h; cases h; rfl
  · rw [e] at h; cases h; rfl
  · rw [e] at h; cases h; rfl

theorem append_chunk_index (B : Nat) (flags : flags_t) (s : State) (data : List Byte)
    (s1 : State) (h : append_chunk B flags s data = .ok s1) :
    s1.index = s.index ∧ s1.ignore_oob = s.ignore_oob := by
  rcases append_chunk_outcomes B flags s data with ⟨f, -, e⟩ | ⟨e, -⟩ | ⟨e, -⟩
  · rw [e] at h; cases h
  · rw [e] at h; cases h; exact ⟨rfl, rfl⟩
  · rw [e] at h; cases h; exact ⟨rfl, rfl⟩

/-! ## The scan cursor (C13) -/

/-- C13 (counterexample). With `DEFAULT_BLK_SZ = 4` and the decoder that finds a
frame at its sync byte, the stream `[4 junk][6-byte frame][garbage]` is read in
chunks of four bytes. After the frame found at offset 4 has been removed, the
next classifier call is passed `index = 4`; that call finds nothing, the buffer
is reset, and the first classifier call after the reset is again passed
`index = 4`. -/
theorem cursor_not_reset :
    (∀ d ∈ cursor_reads, 1 ≤ d.length ∧ d.length ≤ 4) ∧
    (suck_data_from_stream 4 10 all_flags sync_decoder zeros16 cursor_reads).state.trace =
      [Event.call 12 true 0, Event.frame 4 6, Event.call 2 false 4, Event.resync,
       Event.call 12 true 4, Event.resync] ∧
    (suck_data_from_stream 4 10 all_flags sync_decoder zeros16 cursor_reads).state.index = 4 ∧
    (suck_data_from_stream 4 10 all_flags sync_decoder zeros16
      cursor_reads).state.curr_brain_sz = 4 := by
  decide

/-- C13 (amended). The read loop sets `index` to 0 once, before the first read,
and never writes it again: a classification pass leaves in `index` the value
the classifier put there, whether the pass removes a record, resets the buffer
or waits for more data, and the append or overflow reset of a chunk leaves
`index` as it is. So in every run the first classifier call is passed
`index = 0`, and the call that follows the removal of a record found at offset
`O` is passed `index = O`. -/
theorem scan_cursor_kept (B fuel : Nat) (flags : flags_t) (dec : Decoders)
    (brain0 : List Byte) (reads : List (List Byte)) :
    (init brain0).index = 0 ∧
    calls_follow_cursor (some 0)
      (suck_data_from_stream B fuel flags dec brain0 reads).state.trace = true ∧
    (∀ s c s1, classify_iter B flags dec s = .ok (c, s1) →
      s1.index = found_index flags dec s) ∧
    (∀ s data s1, append_chunk B flags s data = .ok s1 → s1.index = s.index) := by
  refine ⟨rfl, ?_, fun s c s1 h => classify_iter_index B flags dec s c s1 h,
    fun s data s1 h => (append_chunk_index B flags s data s1 h).1⟩
  unfold suck_data_from_stream
  have hcall : ∀ s : State,
      (calls_follow_cursor (some 0) s.trace = true ∧
        ∀ v, cursor_known (some 0) s.trace = some v → s.index = v) →
      (calls_follow_cursor (some 0) (after_call flags dec s).trace = true ∧
        ∀ v, cursor_known (some 0) (after_call flags dec s).trace = some v →
          (after_call flags dec s).index = v) := by
    intro s hs
    simp only [after_call, calls_follow_cursor_append, cursor_known_append, cursor_step,
      call_follows, Bool.and_eq_true]
    refine ⟨⟨hs.1, ?_⟩, fun v hv => (by cases hv)⟩
    cases hk : cursor_known (some 0) s.trace with
    | none => rfl
    | some v => simp only [decide_eq_true_eq]; exact hs.2 v hk
  refine (read_loop_preserves
    (fun s => calls_follow_cursor (some 0) s.trace = true ∧
      ∀ v, cursor_known (some 0) s.trace = some v → s.index = v)
    B fuel flags dec hcall ?_ ?_ ?_ ?_ reads (init brain0) ?_).1.1
  · intro s hs
    simp only [resynced, calls_follow_cursor_append, cursor_known_append, cursor_step,
      call_follows, Bool.and_true]
    exact hs
  · intro s hs _ _ hty
    have hs1 := hcall s hs
    have hev : call_follows (cursor_known (some 0) (after_call flags dec s).trace)
          (removal_event flags dec s) = true ∧
        cursor_step (cursor_known (some 0) (after_call flags dec s).trace)
          (removal_event flags dec s) = some (found_index flags dec s) := by
      unfold removal_event
      cases hft : found_type flags dec s with
      | UNKNOWN => exact absurd hft hty
      | MP3_FRAME => exact ⟨rfl, rfl⟩
      | ID3V2_TAG => exact ⟨rfl, rfl⟩
    simp only [compacted, calls_follow_cursor_append, cursor_known_append, hev.1, hev.2,
      hs1.1, Bool.and_self]
    refine ⟨trivial, fun v hv => ?_⟩
    simp only [Option.some.injEq] at hv
    rw [← hv]
    rfl
  · intro s hs
    simp only [overflowed, calls_follow_cursor_append, cursor_known_append, cursor_step,
      call_follows, Bool.and_true]
    exact hs
  · intro s data hs _ _
    exact hs
  · refine ⟨rfl, fun v hv => ?_⟩
    simp only [init, cursor_known, List.foldl_nil, Option.some.injEq] at hv
    rw [← hv]
    rfl

theorem append_chunk_same_length (B : Nat) (flags : flags_t) (s : State)
    (d1 d2 : List Byte) (hlen : d1.length = d2.length) :
    (append_chunk B flags s d1).state.trace = (append_chunk B flags s d2).state.trace ∧
    (append_chunk B flags s d1).state.curr_brain_sz =
      (append_chunk B flags s d2).state.curr_brain_sz ∧
    (append_chunk B flags s d1).state.ignore_oob =
      (append_chunk B flags s d2).state.ignore_oob ∧
    (append_chunk B flags s d1).state.index = (append_chunk B flags s d2).state.index := by
  unfold append_chunk memcpy_brain
  simp only [hlen]
  by_cases c1 : in_int (s.curr_brain_sz + (d2.length : Int))
  · by_cases c2 : s.curr_brain_sz + (d2.length : Int) > brain_sz B
    · simp [c1, c2, Outcome.state]
    · by_cases c3 : s.curr_brain_sz < 0
      · simp [c1, c2, c3, Outcome.state]
      · simp [c1, c2, c3, Outcome.state]
  · simp [c1, Outcome.state]

theorem append_chunk_trace (B : Nat) (flags : flags_t) (s : State) (data : List Byte) :
    ∃ t, (append_chunk B flags s data).state.trace = s.trace ++ t ∧
      (t = [] ∨ t = [Event.overflow]) := by
  rcases append_chunk_outcomes B flags s data with ⟨f, -, e⟩ | ⟨e, -⟩ | ⟨e, -⟩
  · exact ⟨[], by rw [e]; simp [Outcome.state], Or.inl rfl⟩
  · exact ⟨[Event.overflow], by rw [e]; simp [Outcome.state, overflowed], Or.inr rfl⟩
  · exact ⟨[], by rw [e]; simp [Outcome.state, appended], Or.inl rfl⟩

/-- The state a pass of `while (1)` ends in, whether it faults or not. -/
theorem classify_iter_trace (B : Nat) (flags : flags_t) (dec : Decoders) (s : State) :
    (∀ c s1, classify_iter B flags dec s = .ok (c, s1) →
      ∃ t, s1.trace = s.trace ++ Event.call s.curr_brain_sz s.ignore_oob s.index :: t ∧
        calls_made t = 0) ∧
    (∀ f s1, classify_iter B flags dec s = .fault f s1 →
      s1.trace = s.trace ++ [Event.call s.curr_brain_sz s.ignore_oob s.index] ∧
      (f = Fault.int_overflow ∨ f = Fault.memmove_out_of_bounds)) := by
  have hev : calls_made [removal_event flags dec s] = 0 := by
    unfold removal_event
    cases found_type flags dec s <;> rfl
  constructor
  · intro c s1 h
    rcases classify_iter_outcomes B flags dec s with ⟨⟨f, -, e⟩, -⟩ | ⟨e, -⟩ | ⟨e, -⟩ | ⟨e, -⟩
    · rw [e] at h; cases h
    · rw [e] at h; cases h
      exact ⟨[Event.resync], by simp [resynced, after_call], rfl⟩
    · rw [e] at h; cases h
      exact ⟨[], by simp [after_call], rfl⟩
    · rw [e] at h; cases h
      exact ⟨[removal_event flags dec s], by simp [compacted, after_call], hev⟩
  · intro f s1 h
    unfold classify_iter remove_record memmove_brain reset_break at h
    simp only at h
    split at h
    · cases h
    · split_ifs at h <;> first
        | (cases h; exact ⟨rfl, Or.inl rfl⟩)
        | (cases h; exact ⟨rfl, Or.inr rfl⟩)
    · split_ifs at h <;> first
        | (cases h; exact ⟨rfl, Or.inl rfl⟩)
        | (cases h; exact ⟨rfl, Or.inr rfl⟩)

theorem calls_made_append (t u : List Event) :
    calls_made (t ++ u) = calls_made t + calls_made u := by
  simp [calls_made, List.filter_append]

theorem calls_made_call (c : Int) (ign : Bool) (idx : Int) (t : List Event) :
    calls_made (Event.call c ign idx :: t) = calls_made t + 1 := by
  simp [calls_made, List.filter, is_call]

/-- The trace of the classification loop: with fuel left, it starts with the
call that is passed the buffer length of the state in which the loop is entered. -/
theorem classify_loop_trace (B : Nat) (flags : flags_t) (dec : Decoders) (fuel : Nat)
    (s : State) :
    ∃ t, (classify_loop B flags dec (fuel + 1) s).state.trace =
      s.trace ++ Event.call s.curr_brain_sz s.ignore_oob s.index :: t := by
  induction fuel generalizing s with
  | zero =>
    have ht := classify_iter_trace B flags dec s
    unfold classify_loop
    cases hc : classify_iter B flags dec s with
    | fault f s1 =>
      exact ⟨[], by simp only [Outcome.state]; exact (ht.2 f s1 hc).1⟩
    | ok p =>
      obtain ⟨c, s1⟩ := p
      obtain ⟨t, h1, -⟩ := ht.1 c s1 hc
      cases c with
      | true => exact ⟨t, by simp only [classify_loop, Outcome.state]; exact h1⟩
      | false => exact ⟨t, by simp only [Outcome.state]; exact h1⟩
  | succ n ih =>
    have ht := classify_iter_trace B flags dec s
    unfold classify_loop
    cases hc : classify_iter B flags dec s with
    | fault f s1 =>
      exact ⟨[], by simp only [Outcome.state]; exact (ht.2 f s1 hc).1⟩
    | ok p =>
      obtain ⟨c, s1⟩ := p
      obtain ⟨t, h1, -⟩ := ht.1 c s1 hc
      cases c with
      | true =>
        obtain ⟨u, hu⟩ := ih s1
        refine ⟨t ++ Event.call s1.curr_brain_sz s1.ignore_oob s1.index :: u, ?_⟩
        simp only
        rw [hu, h1]
        simp
      | false => exact ⟨t, by simp only [Outcome.state]; exact h1⟩

/-! ## Classification and append (C14) -/

/-- C14 (counterexample). Twelve bytes are buffered and the read returns four
more. The classifier runs before they are appended: its first call is passed
the length 12, not 16, and the four bytes enter the buffer only after the
classification loop has been left. -/
theorem classifier_sees_old_buffer :
    twelve_buffered.curr_brain_sz + 4 ≥ brain_sz 4 ∧
    (loop_body 4 10 all_flags sync_decoder twelve_buffered [5, 6, 7, 8]).state.trace =
      [Event.call 12 true 0, Event.frame 4 6, Event.call 2 false 4] ∧
    found_type all_flags sync_decoder twelve_buffered = STREAM_OBJECT.MP3_FRAME ∧
    classify_iter 4 all_flags sync_decoder twelve_buffered = .ok (true, twelve_compacted) ∧
    twelve_buffered.brain.take 12 = [0, 0, 0, 0, 255, 6, 1, 2, 3, 4, 255, 6] ∧
    (loop_body 4 10 all_flags sync_decoder twelve_buffered [5, 6, 7, 8]).state.brain.take 6 =
      [255, 6, 5, 6, 7, 8] := by
  decide

/-- C14 (amended). Classification precedes the append: in every read-loop
iteration, everything the classification does (the classifier calls and their
arguments, the removals and resets, and the resulting `curr_brain_sz`,
`ignore_oob` and `index`) is the same for any two chunks of the same length, so
the classifier is never shown the chunk just read; and when classification
runs, its first call is passed the `curr_brain_sz`, `ignore_oob` and `index` of
the state before the read, the chunk not being counted in the length. -/
theorem classification_before_append (B fuel : Nat) (flags : flags_t) (dec : Decoders)
    (s : State) (d1 d2 : List Byte) (hlen : d1.length = d2.length) :
    (loop_body B fuel flags dec s d1).state.trace =
      (loop_body B fuel flags dec s d2).state.trace ∧
    (loop_body B fuel flags dec s d1).state.curr_brain_sz =
      (loop_body B fuel flags dec s d2).state.curr_brain_sz ∧
    (loop_body B fuel flags dec s d1).state.ignore_oob =
      (loop_body B fuel flags dec s d2).state.ignore_oob ∧
    (loop_body B fuel flags dec s d1).state.index =
      (loop_body B fuel flags dec s d2).state.index ∧
    (in_int (s.curr_brain_sz + (d1.length : Int)) →
      s.curr_brain_sz + (d1.length : Int) ≥ brain_sz B →
      ∃ rest, (loop_body B (fuel + 1) flags dec s d1).state.trace =
        s.trace ++ Event.call s.curr_brain_sz s.ignore_oob s.index :: rest) := by
  have hsame : (loop_body B fuel flags dec s d1).state.trace =
        (loop_body B fuel flags dec s d2).state.trace ∧
      (loop_body B fuel flags dec s d1).state.curr_brain_sz =
        (loop_body B fuel flags dec s d2).state.curr_brain_sz ∧
      (loop_body B fuel flags dec s d1).state.ignore_oob =
        (loop_body B fuel flags dec s d2).state.ignore_oob ∧
      (loop_body B fuel flags dec s d1).state.index =
        (loop_body B fuel flags dec s d2).state.index := by
    unfold loop_body
    simp only [hlen]
    by_cases c1 : in_int (s.curr_brain_sz + (d2.length : Int))
    · simp only [c1, not_true_eq_false, if_false]
      by_cases c2 : s.curr_brain_sz + (d2.length : Int) ≥ brain_sz B
      · simp only [c2, if_true]
        cases classify_loop B flags dec fuel s with
        | fault f s1 => exact ⟨rfl, rfl, rfl, rfl⟩
        | ok s1 => exact append_chunk_same_length B flags s1 d1 d2 hlen
      · simp only [c2, if_false]
        exact append_chunk_same_length B flags s d1 d2 hlen
    · simp only [c1, not_false_eq_true, if_true, and_self]
  refine ⟨hsame.1, hsame.2.1, hsame.2.2.1, hsame.2.2.2, ?_⟩
  · intro c1 c2
    unfold loop_body
    simp only [c1, c2, not_true_eq_false, if_false, if_true]
    obtain ⟨t, ht⟩ := classify_loop_trace B flags dec fuel s
    cases hc : classify_loop B flags dec (fuel + 1) s with
    | fault f s1 =>
      rw [hc] at ht
      exact ⟨t, ht⟩
    | ok s1 =>
      rw [hc] at ht
      simp only [Outcome.state] at ht
      obtain ⟨u, hu, -⟩ := append_chunk_trace B flags s1 d1
      refine ⟨t ++ u, ?_⟩
      simp only
      rw [hu, ht]
      simp

/-- C14 (amended) at a concrete iteration: twelve buffered bytes and two
chunks of four bytes. -/
theorem classification_before_append_witness :
    (loop_body 4 10 all_flags sync_decoder twelve_buffered [5, 6, 7, 8]).state.trace =
      (loop_body 4 10 all_flags sync_decoder twelve_buffered [255, 255, 255, 255]).state.trace ∧
    (loop_body 4 10 all_flags sync_decoder twelve_buffered [5, 6, 7, 8]).state.curr_brain_sz =
      (loop_body 4 10 all_flags sync_decoder twelve_buffered
        [255, 255, 255, 255]).state.curr_brain_sz ∧
    (loop_body 4 10 all_flags sync_decoder twelve_buffered [5, 6, 7, 8]).state.ignore_oob =
      (loop_body 4 10 all_flags sync_decoder twelve_buffered
        [255, 255, 255, 255]).state.ignore_oob ∧
    (loop_body 4 10 all_flags sync_decoder twelve_buffered [5, 6, 7, 8]).state.index =
      (loop_body 4 10 all_flags sync_decoder twelve_buffered [255, 255, 255, 255]).state.index ∧
    (in_int (twelve_buffered.curr_brain_sz + (([5, 6, 7, 8] : List Byte).length : Int)) →
      twelve_buffered.curr_brain_sz + (([5, 6, 7, 8] : List Byte).length : Int) ≥ brain_sz 4 →
      ∃ rest, (loop_body 4 (10 + 1) all_flags sync_decoder twelve_buffered
          [5, 6, 7, 8]).state.trace =
        twelve_buffered.trace ++
          Event.call twelve_buffered.curr_brain_sz twelve_buffered.ignore_oob
            twelve_buffered.index :: rest) :=
  classification_before_append 4 10 all_flags sync_decoder twelve_buffered [5, 6, 7, 8]
    [255, 255, 255, 255] (by decide)

theorem loop_body_trigger_trace (B fuel : Nat) (flags : flags_t) (dec : Decoders)
    (s : State) (data : List Byte)
    (c1 : in_int (s.curr_brain_sz + (data.length : Int)))
    (c2 : s.curr_brain_sz + (data.length : Int) ≥ brain_sz B) :
    ∃ rest, (loop_body B (fuel + 1) flags dec s data).state.trace =
      s.trace ++ Event.call s.curr_brain_sz s.ignore_oob s.index :: rest := by
  unfold loop_body
  simp only [c1, c2, not_true_eq_false, if_false, if_true]
  obtain ⟨t, ht⟩ := classify_loop_trace B flags dec fuel s
  cases hc : classify_loop B flags dec (fuel + 1) s with
  | fault f s1 =>
    rw [hc] at ht
    exact ⟨t, ht⟩
  | ok s1 =>
    rw [hc] at ht
    simp only [Outcome.state] at ht
    obtain ⟨u, hu, -⟩ := append_chunk_trace B flags s1 data
    refine ⟨t ++ u, ?_⟩
    simp only
    rw [hu, ht]
    simp

theorem loop_body_ok_nonneg (B fuel : Nat) (flags : flags_t) (dec : Decoders)
    (s : State) (data : List Byte) (s1 : State)
    (h : loop_body B fuel flags dec s data = .ok s1) : 0 ≤ s1.curr_brain_sz := by
  have happ : ∀ s2, append_chunk B flags s2 data = .ok s1 → 0 ≤ s1.curr_brain_sz := by
    intro s2 h2
    rcases append_chunk_outcomes B flags s2 data with ⟨f, -, e⟩ | ⟨e, -⟩ | ⟨e, h0, -⟩
    · rw [e] at h2; cases h2
    · rw [e] at h2; cases h2; exact le_refl _
    · rw [e] at h2; cases h2
      simp only [appended]
      omega
  unfold loop_body at h
  simp only at h
  split_ifs at h with c1 c2
  · cases hc : classify_loop B flags dec fuel s with
    | fault f s2 => rw [hc] at h; cases h
    | ok s2 => rw [hc] at h; exact happ s2 h
  · exact happ s h

theorem read_loop_ok_nonneg (B fuel : Nat) (flags : flags_t) (dec : Decoders)
    (reads : List (List Byte)) (s s1 : State) (h0 : 0 ≤ s.curr_brain_sz)
    (h : read_loop B fuel flags dec s reads = .ok s1) : 0 ≤ s1.curr_brain_sz := by
  induction reads generalizing s with
  | nil =>
    simp only [read_loop] at h
    cases h
    exact h0
  | cons d rest ih =>
    unfold read_loop at h
    by_cases hd : d.length = 0
    · simp only [hd, if_true] at h
      cases h
      exact h0
    · simp only [hd, if_false] at h
      cases hb : loop_body B fuel flags dec s d with
      | fault f s2 => rw [hb] at h; cases h
      | ok s2 =>
        rw [hb] at h
        exact ih s2 (loop_body_ok_nonneg B fuel flags dec s d s2 hb) h

/-- A buffer as the read loop keeps it: `brain` has `brain_sz` bytes and
`curr_brain_sz ≤ brain_sz`. -/
theorem run_state_shape (B fuel : Nat) (flags : flags_t) (dec : Decoders)
    (brain0 : List Byte) (reads : List (List Byte)) (hbrain : brain0.length = 4 * B) :
    (suck_data_from_stream B fuel flags dec brain0 reads).state.brain.length = 4 * B ∧
    (suck_data_from_stream B fuel flags dec brain0 reads).state.curr_brain_sz ≤ brain_sz B := by
  have hbs : brain_sz B = ((4 * B : Nat) : Int) := by simp [brain_sz]; ring
  unfold suck_data_from_stream
  refine (read_loop_preserves
    (fun s => s.brain.length = 4 * B ∧ s.curr_brain_sz ≤ brain_sz B)
    B fuel flags dec ?_ ?_ ?_ ?_ ?_ reads (init brain0) ?_).1
  · intro s hs; exact hs
  · intro s hs; exact ⟨hs.1, by simp only [resynced]; omega⟩
  · intro s hs h0 h1 _
    refine ⟨?_, ?_⟩
    · simp only [compacted, after_call, List.length_append, List.length_drop, hs.1]
      omega
    · simp only [compacted, after_call]
      omega
  · intro s hs; exact ⟨hs.1, by simp only [overflowed]; omega⟩
  · intro s data hs h0 h1
    refine ⟨?_, h1⟩
    rw [appended_length flags s data h0 (by omega)]
    exact hs.1
  · exact ⟨hbrain, by simp only [init]; omega⟩

/-! ## Deferred classification (C15) -/

/-- C15: deferred classification. Let `s` be the state in which a read loop
iteration starts (the state a run has reached after any reads) and `data` the
chunk read, of 1 to `DEFAULT_BLK_SZ` bytes. When
`curr_brain_sz + recv_sz < brain_sz` the iteration ends normally, the chunk sits
at `brain[curr_brain_sz .. curr_brain_sz + recv_sz)`, the bytes before and after
it are those of before, `curr_brain_sz` has grown by `recv_sz`, and
`ignore_oob`, `index` and the trace (no classifier call) are unchanged. And the
iteration makes a classifier call if and only if
`curr_brain_sz + recv_sz ≥ brain_sz`. -/
theorem deferred_classification (B fuel0 fuel : Nat) (flags : flags_t) (dec : Decoders)
    (brain0 : List Byte) (reads : List (List Byte)) (s : State) (data : List Byte)
    (hB : brain_sz B + B ≤ INT_MAX) (hbrain : brain0.length = 4 * B)
    (hrun : suck_data_from_stream B fuel0 flags dec brain0 reads = .ok s)
    (hd : 1 ≤ data.length ∧ data.length ≤ B) :
    (s.curr_brain_sz + (data.length : Int) < brain_sz B →
      ∃ s1, loop_body B fuel flags dec s data = .ok s1 ∧
        s1.curr_brain_sz = s.curr_brain_sz + (data.length : Int) ∧
        s1.brain.take s.curr_brain_sz.toNat = s.brain.take s.curr_brain_sz.toNat ∧
        (s1.brain.drop s.curr_brain_sz.toNat).take data.length = data ∧
        s1.brain.drop (s.curr_brain_sz.toNat + data.length) =
          s.brain.drop (s.curr_brain_sz.toNat + data.length) ∧
        s1.ignore_oob = s.ignore_oob ∧ s1.index = s.index ∧ s1.trace = s.trace) ∧
    (calls_made (loop_body B (fuel + 1) flags dec s data).state.trace > calls_made s.trace ↔
      s.curr_brain_sz + (data.length : Int) ≥ brain_sz B) := by
  have hbs : brain_sz B = ((4 * B : Nat) : Int) := by simp [brain_sz]; ring
  have hshape := run_state_shape B fuel0 flags dec brain0 reads hbrain
  rw [hrun] at hshape
  simp only [Outcome.state] at hshape
  obtain ⟨hlen, hle⟩ := hshape
  have h0 : 0 ≤ s.curr_brain_sz := by
    unfold suck_data_from_stream at hrun
    exact read_loop_ok_nonneg B fuel0 flags dec reads (init brain0) s (le_refl _) hrun
  have hin : in_int (s.curr_brain_sz + (data.length : Int)) := by
    simp only [in_int, INT_MIN, INT_MAX] at hB ⊢
    omega
  have hdefer : ∀ k, s.curr_brain_sz + (data.length : Int) < brain_sz B →
      loop_body B k flags dec s data = .ok (appended flags s data) := by
    intro k hlt
    have c2 : ¬ (s.curr_brain_sz + (data.length : Int) ≥ brain_sz B) := by omega
    unfold loop_body
    simp only [hin, c2, not_true_eq_false, if_false]
    exact append_chunk_fits B flags s data h0 (by omega) (by omega)
  constructor
  · intro hlt
    refine ⟨appended flags s data, hdefer fuel hlt, rfl, ?_, ?_, ?_, rfl, rfl, rfl⟩
    · simp only [appended, List.append_assoc]
      rw [List.take_append_of_le_length (by rw [List.length_take]; omega), List.take_take]
      simp
    · simp only [appended, List.append_assoc]
      rw [List.drop_left' (by rw [List.length_take]; omega)]
      simp
    · simp only [appended]
      have hl : (List.take s.curr_brain_sz.toNat s.brain ++ data).length =
          s.curr_brain_sz.toNat + data.length := by
        rw [List.length_append, List.length_take]
        omega
      rw [List.drop_left' hl]
  · constructor
    · intro hgt
      by_contra hlt
      rw [hdefer (fuel + 1) (by omega)] at hgt
      simp only [Outcome.state, appended] at hgt
      omega
    · intro hge
      obtain ⟨rest, hrest⟩ := loop_body_trigger_trace B fuel flags dec s data hin hge
      rw [hrest, calls_made_append, calls_made_call]
      omega

/-- C15 at a concrete state: `DEFAULT_BLK_SZ = 4`, the state after the two
reads of `short_reads` (eight bytes buffered), and a chunk of two bytes. -/
theorem deferred_classification_witness :
    (eight_buffered.curr_brain_sz + (([7, 7] : List Byte).length : Int) < brain_sz 4 →
      ∃ s1, loop_body 4 10 all_flags sync_decoder eight_buffered [7, 7] = .ok s1 ∧
        s1.curr_brain_sz =
          eight_buffered.curr_brain_sz + (([7, 7] : List Byte).length : Int) ∧
        s1.brain.take eight_buffered.curr_brain_sz.toNat =
          eight_buffered.brain.take eight_buffered.curr_brain_sz.toNat ∧
        (s1.brain.drop eight_buffered.curr_brain_sz.toNat).take
          ([7, 7] : List Byte).length = [7, 7] ∧
        s1.brain.drop (eight_buffered.curr_brain_sz.toNat + ([7, 7] : List Byte).length) =
          eight_buffered.brain.drop
            (eight_buffered.curr_brain_sz.toNat + ([7, 7] : List Byte).length) ∧
        s1.ignore_oob = eight_buffered.ignore_oob ∧ s1.index = eight_buffered.index ∧
        s1.trace = eight_buffered.trace) ∧
    (calls_made (loop_body 4 (10 + 1) all_flags sync_decoder eight_buffered
        [7, 7]).state.trace > calls_made eight_buffered.trace ↔
      eight_buffered.curr_brain_sz + (([7, 7] : List Byte).length : Int) ≥ brain_sz 4) :=
  deferred_classification 4 10 10 all_flags sync_decoder zeros16 short_reads eight_buffered
    [7, 7] (by decide) (by decide) (by decide) (by decide)

/-! ## Negative buffer length (C16) -/

/-- C16 (the code departs from the claim). With `DEFAULT_BLK_SZ = 4`, twelve junk
bytes are buffered and the decoder, which only reports the offset 10 and the
length 5, both non-negative, is asked at the fourth read. The frame ends at 15,
past the 12 buffered bytes, but line 114 compares the length alone: the frame
is removed and `curr_brain_sz` becomes `-3`. The classifier is called with size
`-3`, asks for more data, and the append of line 170 would then write at
`brain - 3`: the run stops there. -/
theorem buffered_length_goes_negative :
    (∀ brain n ign idx ext,
      0 ≤ (fixed_frame_decoder.next_mp3_frame_or_id3v2 brain n ign idx ext).2) ∧
    (∀ brain idx,
      0 ≤ (fixed_frame_decoder.mp3_set_header brain idx).audio_size +
        (fixed_frame_decoder.mp3_set_header brain idx).header_size) ∧
    (∀ d ∈ junk_reads, 1 ≤ d.length ∧ d.length ≤ 4) ∧
    suck_data_from_stream 4 10 all_flags fixed_frame_decoder zeros16 junk_reads =
      .fault Fault.memcpy_before_start junk_fault_state ∧
    junk_fault_state.curr_brain_sz = -3 ∧
    junk_fault_state.trace =
      [Event.call 12 true 0, Event.frame 10 5, Event.call (-3) false 10] := by
  refine ⟨fun _ _ _ _ _ => ?_, fun _ _ => ?_, by decide, by decide, by decide, by decide⟩
  · show (0 : Int) ≤ 10
    decide
  · show (0 : Int) ≤ 3 + 2
    decide

theorem found_length_nonneg (flags : flags_t) (dec : Decoders) (s : State)
    (hframe : ∀ brain idx, 0 ≤ (dec.mp3_set_header brain idx).audio_size +
      (dec.mp3_set_header brain idx).header_size)
    (htag : ∀ brain idx, 0 ≤ (dec.id3_set_header brain idx).size +
      (10 + (if (dec.id3_set_header brain idx).footer then 10 else 0))) :
    0 ≤ found_length flags dec s := by
  unfold found_length
  cases found_type flags dec s with
  | UNKNOWN => exact le_refl _
  | MP3_FRAME => exact hframe _ _
  | ID3V2_TAG => exact htag _ _

theorem classify_iter_decreases (B : Nat) (flags : flags_t) (dec : Decoders) (s s1 : State)
    (hidx : ∀ brain n ign idx ext, 0 ≤ (dec.next_mp3_frame_or_id3v2 brain n ign idx ext).2)
    (hframe : ∀ brain idx, 0 ≤ (dec.mp3_set_header brain idx).audio_size +
      (dec.mp3_set_header brain idx).header_size)
    (htag : ∀ brain idx, 0 ≤ (dec.id3_set_header brain idx).size +
      (10 + (if (dec.id3_set_header brain idx).footer then 10 else 0)))
    (h : classify_iter B flags dec s = .ok (true, s1)) :
    s1.curr_brain_sz ≤ s.curr_brain_sz - 1 ∧ 2 ≤ s.curr_brain_sz := by
  have hL := found_length_nonneg flags dec s hframe htag
  have hO : 0 ≤ found_index flags dec s := hidx _ _ _ _ _
  rcases classify_iter_outcomes B flags dec s with ⟨⟨f, -, e⟩, -⟩ | ⟨e, -⟩ | ⟨e, -⟩ |
    ⟨e, -, h1, h2, -, -⟩
  · rw [e] at h; cases h
  · rw [e] at h; cases h
  · rw [e] at h; cases h
  · rw [e] at h
    cases h
    simp only [compacted, after_call]
    constructor <;> omega

/-! ## Termination of the classification loop (C17) -/

/-- C17: the loop `while (1)` ends. For every decoder that reports non-negative
offsets and non-negative frame and tag lengths, and every buffer state: a pass
that does not leave the loop lowers `curr_brain_sz` by at least 1; and with
fuel for `curr_brain_sz + 1` passes (one pass when `curr_brain_sz` is negative)
the loop never runs out of fuel and makes at most that many classifier calls,
whether it is left by `break` or stopped by a fault of a pass. -/
theorem classification_loop_terminates (B : Nat) (flags : flags_t) (dec : Decoders)
    (s : State) (fuel : Nat)
    (hidx : ∀ brain n ign idx ext, 0 ≤ (dec.next_mp3_frame_or_id3v2 brain n ign idx ext).2)
    (hframe : ∀ brain idx, 0 ≤ (dec.mp3_set_header brain idx).audio_size +
      (dec.mp3_set_header brain idx).header_size)
    (htag : ∀ brain idx, 0 ≤ (dec.id3_set_header brain idx).size +
      (10 + (if (dec.id3_set_header brain idx).footer then 10 else 0)))
    (hfuel : s.curr_brain_sz.toNat + 1 ≤ fuel) :
    (∀ s1, classify_loop B flags dec fuel s ≠ .fault Fault.out_of_fuel s1) ∧
    calls_made (classify_loop B flags dec fuel s).state.trace ≤
      calls_made s.trace + (s.curr_brain_sz.toNat + 1) ∧
    (∀ s2 s1, classify_iter B flags dec s2 = .ok (true, s1) →
      s1.curr_brain_sz ≤ s2.curr_brain_sz - 1) := by
  refine ⟨?_, ?_, fun s2 s1 h =>
    (classify_iter_decreases B flags dec s2 s1 hidx hframe htag h).1⟩
  · induction fuel generalizing s with
    | zero => omega
    | succ n ih =>
      intro s1
      unfold classify_loop
      cases hc : classify_iter B flags dec s with
      | fault f s2 =>
        simp only
        intro e
        cases e
        rcases ((classify_iter_trace B flags dec s).2 _ _ hc).2 with h | h <;> cases h
      | ok p =>
        obtain ⟨c, s2⟩ := p
        cases c with
        | true =>
          simp only
          have hdec := classify_iter_decreases B flags dec s s2 hidx hframe htag hc
          exact ih s2 (by omega) s1
        | false =>
          simp only
          intro e
          cases e
  · induction fuel generalizing s with
    | zero => omega
    | succ n ih =>
      have ht := classify_iter_trace B flags dec s
      unfold classify_loop
      cases hc : classify_iter B flags dec s with
      | fault f s2 =>
        simp only [Outcome.state]
        rw [(ht.2 _ _ hc).1, calls_made_append]
        simp only [calls_made_call]
        have : calls_made [] = 0 := rfl
        omega
      | ok p =>
        obtain ⟨c, s2⟩ := p
        obtain ⟨t, h1, h2⟩ := ht.1 c s2 hc
        cases c with
        | true =>
          simp only
          have hdec := classify_iter_decreases B flags dec s s2 hidx hframe htag hc
          have := ih s2 (by omega)
          rw [h1, calls_made_append, calls_made_call, h2] at this
          omega
        | false =>
          simp only [Outcome.state]
          rw [h1, calls_made_append, calls_made_call, h2]
          omega

/-- C17 at a concrete buffer: twelve buffered bytes, the decoder that always
reports a frame of length 5 at offset 10, and fuel for thirteen passes. -/
theorem classification_loop_terminates_witness :
    (∀ s1, classify_loop 4 all_flags fixed_frame_decoder 13 twelve_buffered ≠
      .fault Fault.out_of_fuel s1) ∧
    calls_made (classify_loop 4 all_flags fixed_frame_decoder 13 twelve_buffered).state.trace ≤
      calls_made twelve_buffered.trace + (twelve_buffered.curr_brain_sz.toNat + 1) ∧
    (∀ s2 s1, classify_iter 4 all_flags fixed_frame_decoder s2 = .ok (true, s1) →
      s1.curr_brain_sz ≤ s2.curr_brain_sz - 1) :=
  classification_loop_terminates 4 all_flags fixed_frame_decoder twelve_buffered 13
    (fun _ _ _ _ _ => (by decide : (0 : Int) ≤ 10))
    (fun _ _ => (by decide : (0 : Int) ≤ 3 + 2))
    (fun _ _ => (by decide : (0 : Int) ≤ 0 + (10 + (if false = true then 10 else 0))))
    (by decide)

/-! ## The response buffer (C18) -/

/-- C18: the response loop of `get_stream_info`. For every sequence of reads of
1 to `DEFAULT_BLK_SZ` bytes: in the locals with which the loop ends (at the end
of the reads or at a fault) `total_sz ≤ n_buf_blks * buf_blk_sz`; the loop never
stops because the `memcpy` of line 216 would pass the end of the block, whose
size is `n_buf_blks * buf_blk_sz`; and when the loop has run through all the
reads, `total_sz` is the sum of their lengths. -/
theorem response_loop_bounded (B : Nat) (w : World) (reads : List (List Byte))
    (hreads : ∀ d ∈ reads, 1 ≤ d.length ∧ d.length ≤ B) :
    (accumulate B w info_init reads).state.total_sz ≤
      (accumulate B w info_init reads).state.n_buf_blks * buf_blk_sz B ∧
    (∀ a, accumulate B w info_init reads ≠ .fault InfoFault.memcpy_past_block a) ∧
    (∀ a, accumulate B w info_init reads = .ok a →
      a.total_sz = (((reads.map List.length).sum : Nat) : Int) ∧
      ∀ blk, a.buf = some blk → (blk.length : Int) = a.n_buf_blks * buf_blk_sz B) := by
  have hinit : info_bounded B info_init := by
    refine ⟨le_refl _, le_refl _, ?_, fun blk h => (by cases h)⟩
    simp [info_init]
  obtain ⟨h1, h2, h3⟩ := accumulate_bounded B w reads info_init hinit hreads
  refine ⟨h1, h2, fun a e => ?_⟩
  obtain ⟨k1, k2⟩ := h3 a e
  refine ⟨?_, k1.2.2.2⟩
  rw [k2]
  simp [info_init]

/-- C18 at a concrete response: `DEFAULT_BLK_SZ = 4`, six bytes read as 4 and
2. -/
theorem response_loop_bounded_witness :
    (accumulate 4 two_read_world info_init [[1, 2, 3, 4], [5, 6]]).state.total_sz ≤
      (accumulate 4 two_read_world info_init [[1, 2, 3, 4], [5, 6]]).state.n_buf_blks *
        buf_blk_sz 4 ∧
    (∀ a, accumulate 4 two_read_world info_init [[1, 2, 3, 4], [5, 6]] ≠
      .fault InfoFault.memcpy_past_block a) ∧
    (∀ a, accumulate 4 two_read_world info_init [[1, 2, 3, 4], [5, 6]] = .ok a →
      a.total_sz = ((([[1, 2, 3, 4], [5, 6]] : List (List Byte)).map List.length).sum : Nat) ∧
      ∀ blk, a.buf = some blk → (blk.length : Int) = a.n_buf_blks * buf_blk_sz 4) :=
  response_loop_bounded 4 two_read_world [[1, 2, 3, 4], [5, 6]] (by decide)

end Mp3nema
